import Mathlib

/-!
Verification of the light-lang core (lexer, runtime value system, environment
chain, tree-walking interpreter) against its specification.

The Go sources are embedded shallowly:

* machine integers (`int64`) are `Int` with an explicit two's-complement wrap
  (`wrap64`) applied exactly where Go arithmetic can overflow;
* `float64` is modelled by `ℚ` restricted to IEEE-754 binary64 behaviour via
  round-to-nearest-even on 53 significant bits (`fround`), with an unbounded
  exponent range (no infinities, NaNs or negative zero; no claim below touches
  those);
* Go `map[string]Value` is an association list with in-place replacement
  (`insertA`), which preserves Go's observable lookup behaviour;
* Go panics (out-of-range indexing) are modelled as an explicit `crash`
  result, and Go `error` returns as `Except`/structured error values;
* loops and the mutually recursive tree walk take an explicit fuel parameter;
  exhausting fuel is a distinguished outcome (`none` / `fuelOut`), never
  identified with a crash or an error.
-/

namespace LightLang

/-! ## int64 and float64 models -/

/-- Two's-complement wrap of Go `int64` arithmetic: maps an unbounded integer
to the `int64` value Go stores for it. -/
def wrap64 (x : Int) : Int := (x + 2 ^ 63) % 2 ^ 64 - 2 ^ 63

/-- Number of halvings needed to bring `n` strictly below `2^53` (the fuel is
generous; 1024 covers every integer below `2^1024`). Used to locate the
binary exponent when rounding to binary64 precision. -/
def shiftExp : Nat → Nat → Nat
  | 0, _ => 0
  | f + 1, n => if n < 2 ^ 53 then 0 else shiftExp f (n / 2) + 1

/-- Round a natural number to 53 significant bits, round-to-nearest,
ties-to-even: the value of Go `float64(n)` for `n` below the overflow range. -/
def roundNat53 (n : Nat) : Nat :=
  if n < 2 ^ 53 then n
  else
    let e := shiftExp 1024 n
    let q := n / 2 ^ e
    let r := n % 2 ^ e
    let q' := if 2 * r > 2 ^ e ∨ (2 * r = 2 ^ e ∧ q % 2 = 1) then q + 1 else q
    q' * 2 ^ e

/-- The exact value of Go `float64(m)` for an `int64` argument `m`:
round-to-nearest-even at 53 significant bits. -/
def roundInt53 (m : Int) : Int :=
  if m < 0 then -(roundNat53 m.natAbs : Int) else (roundNat53 m.natAbs : Int)

/-- Floor of the base-2 logarithm of `n / d` (for `n, d ≥ 1`), fuel-driven. -/
def qlog2 : Nat → Nat → Nat → Int
  | 0, _, _ => 0
  | f + 1, n, d =>
    if n < d then qlog2 f (2 * n) d - 1
    else if n < 2 * d then 0
    else qlog2 f n (2 * d) + 1

/-- Round a rational to the nearest integer, ties to even. -/
def rhalfEven (s : ℚ) : Int :=
  let f := ⌊s⌋
  let r := s - (f : ℚ)
  if r > 1 / 2 then f + 1 else if r < 1 / 2 then f else if f % 2 = 0 then f else f + 1

/-- Round an exact rational to the nearest binary64 value (round-to-nearest,
ties-to-even, 53 significant bits, unbounded exponent). Go's `float64`
arithmetic is the exact operation followed by this rounding. -/
def fround (q : ℚ) : ℚ :=
  if q = 0 then 0
  else
    let e : Int := qlog2 4096 q.num.natAbs q.den - 52
    let m : Int := rhalfEven (q / (2 : ℚ) ^ e)
    (m : ℚ) * (2 : ℚ) ^ e

/-- Go `float64` addition. -/
def fadd (x y : ℚ) : ℚ := fround (x + y)

/-- Go `float64` subtraction. -/
def fsub (x y : ℚ) : ℚ := fround (x - y)

/-- Go `float64` multiplication. -/
def fmul (x y : ℚ) : ℚ := fround (x * y)

/-- Go `float64` division. -/
def fdivQ (x y : ℚ) : ℚ := fround (x / y)

/-- Truncation of a rational toward zero (the rounding of Go float→int
conversions when the result is representable). -/
def ratTrunc (q : ℚ) : Int := Int.tdiv q.num (Int.ofNat q.den)

/-- Go conversion `int64(f)` for a `float64` value: truncation toward zero
when the truncated value fits in int64. Go leaves the out-of-range case
implementation-specific; the reference platform (amd64, `cvttsd2si`) yields
the integer indefinite `-2^63`, which is what this models — it matters for
int64 operands within 512 of `2^63`, whose `float64` image rounds up to
`2^63` and no longer fits. -/
def int64ofF64 (q : ℚ) : Int :=
  if ratTrunc q < -(2 ^ 63) ∨ 2 ^ 63 - 1 < ratTrunc q then -(2 ^ 63)
  else ratTrunc q

/-- The value of Go `int64(float64(m))` for an int64 `m`: rounding to
binary64 and converting back (with the amd64 out-of-range result). This is
the image each Int operand of the numeric binary operators takes before the
integer arithmetic is applied. -/
def roundTrip64 (m : Int) : Int := int64ofF64 ((roundInt53 m : Int) : ℚ)

/-! ## AST (internal/ast/ast.go, the fragment reached by the claims)

Node spans are location bookkeeping only (they decide no behaviour beyond
appearing inside error values) and are omitted from the embedding. -/

/-- Binary operator token kinds dispatched by `evalBinary` (token.Kind). -/
inductive BinOp where
  | plus | minus | star | slash | percent
  | eq | neq | lt | lte | gt | gte
  | and | or
  deriving DecidableEq, Repr

/-- Expressions (ast.go). Literals carry their decoded values. -/
inductive Expr where
  | intLiteral (value : Int)
  | floatLiteral (value : ℚ)
  | stringLiteral (value : String)
  | boolLiteral (value : Bool)
  | nullLiteral
  | identExpr (name : String)
  | binaryExpr (op : BinOp) (left right : Expr)
  | callExpr (callee : Expr) (args : List Expr)
  | newExpr (className : String) (args : List Expr)
  deriving Repr

/-- Statements (ast.go). `TryStmt.CatchParam` may be empty and
`TryStmt.CatchBody` may be absent, exactly as in the Go struct. -/
inductive Stmt where
  | exprStmt (e : Expr)
  | varDeclStmt (name : String) (isConst : Bool) (init : Option Expr)
  | returnStmt (value : Option Expr)
  | breakStmt
  | continueStmt
  | blockStmt (stmts : List Stmt)
  | tryStmt (body : List Stmt) (catchParam : String) (catchBody : Option (List Stmt))
  | throwStmt (value : Expr)
  deriving Repr

/-! ## Runtime values and environments (internal/runtime/value.go, env.go)

`FuncVal.Closure` and `ClassVal.Env` point into the environment chain, so the
three types are mutually recursive. A Go `map[string]Value` is embedded as an
association list updated in place (`insertA`), which has the same lookup
behaviour; `MapVal` keeps its separate ordered `Keys` list exactly as the
source does. -/

mutual
/-- Runtime values (value.go). `BuiltinVal`, enums and interfaces are outside
every claim and omitted. -/
inductive Value where
  | intV (n : Int)
  | floatV (q : ℚ)
  | strV (s : String)
  | boolV (b : Bool)
  | nullV
  | funcV (name : String) (params : List String) (body : List Stmt) (closure : Environment)
  | classV (cls : ClassData)
  | objectV (cls : ClassData) (props : List (String × Value))
  | arrayV (elements : List Value)
  | mapV (keys : List String) (values : List (String × Value))
/-- A `ClassVal`: declaration name, optional constructor (params and body),
defining environment, and the resolved super class. -/
inductive ClassData where
  | mk (name : String) (ctor : Option (List String × List Stmt))
       (env : Environment) (sup : Option ClassData)
/-- An environment node (env.go): bindings, const-name set, parent link. -/
inductive Environment where
  | mk (values : List (String × Value)) (consts : List String) (parent : Option Environment)
end

/-- Class name accessor. -/
def ClassData.name : ClassData → String
  | .mk n _ _ _ => n

/-- Constructor slot accessor. -/
def ClassData.ctor : ClassData → Option (List String × List Stmt)
  | .mk _ c _ _ => c

/-- Defining-environment accessor. -/
def ClassData.env : ClassData → Environment
  | .mk _ _ e _ => e

/-- Super-class accessor. -/
def ClassData.sup : ClassData → Option ClassData
  | .mk _ _ _ s => s

/-- Lookup in the association-list model of a Go `map[string]Value`. -/
def lookupA (l : List (String × Value)) (k : String) : Option Value :=
  match l with
  | [] => none
  | p :: rest => if p.1 = k then some p.2 else lookupA rest k

/-- `m[k] = v` on the association-list model: replace in place if the key is
present, else append. -/
def insertA (l : List (String × Value)) (k : String) (v : Value) : List (String × Value) :=
  match l with
  | [] => [(k, v)]
  | p :: rest => if p.1 = k then (k, v) :: rest else p :: insertA rest k v

/-! ### Environment operations (env.go) -/

/-- The three `error` values produced by env.go, kept structured; `message`
renders the exact `fmt.Errorf` text. -/
inductive EnvError where
  | alreadyDeclared (name : String)
  | undefinedVariable (name : String)
  | cannotAssignConstant (name : String)
  deriving DecidableEq, Repr

/-- The `fmt.Errorf` message of each env.go error. -/
def EnvError.message : EnvError → String
  | .alreadyDeclared n => s!"variable '{n}' already declared in this scope"
  | .undefinedVariable n => s!"undefined variable '{n}'"
  | .cannotAssignConstant n => s!"cannot assign to constant '{n}'"

/-- `Define` declares a new variable in the current scope (env.go). -/
def Environment.Define (e : Environment) (name : String) (value : Value) (isConst : Bool) :
    Except EnvError Environment :=
  match e with
  | .mk values consts parent =>
    if (lookupA values name).isSome then .error (.alreadyDeclared name)
    else .ok (.mk (insertA values name value) (if isConst then name :: consts else consts) parent)

/-- `Get` looks up a variable by walking the scope chain (env.go): if the
current node binds the name return it, else continue with the parent. -/
def Environment.Get : Environment → String → Option Value
  | .mk values _ parent, name =>
    if (lookupA values name).isSome then lookupA values name
    else
      match parent with
      | some p => p.Get name
      | none => none

/-- `Set` assigns to an existing variable by walking the chain (env.go). The
Go method mutates the found node and returns an `error`; here the (possibly
unchanged) chain is returned next to the optional error, so that the
"no write before an early error return" behaviour is part of the embedding. -/
def Environment.Set : Environment → String → Value → Option EnvError × Environment
  | .mk values consts parent, name, value =>
    if (lookupA values name).isSome then
      if name ∈ consts then (some (.cannotAssignConstant name), .mk values consts parent)
      else (none, .mk (insertA values name value) consts parent)
    else
      match parent with
      | some p =>
        match p.Set name value with
        | (err, p') => (err, .mk values consts (some p'))
      | none => (some (.undefinedVariable name), .mk values consts parent)

/-- The const-ness of the nearest binding of `name` in the chain: `none` when
no node binds it. This is the notion the claims about `Set` quantify over. -/
def nearestConst : Environment → String → Option Bool
  | .mk values consts parent, name =>
    if (lookupA values name).isSome then some (decide (name ∈ consts))
    else
      match parent with
      | some p => nearestConst p name
      | none => none

/-- The chain's bindings flattened nearest-node-first: `Get` is first-hit
lookup in this list. -/
def chainConcat : Environment → List (String × Value)
  | .mk values _ parent =>
    values ++ (match parent with
               | some p => chainConcat p
               | none => [])

/-- Call sites in the interpreter that ignore `Define`'s error (`callFunc`
parameter binding, `catchEnv.Define`, constructor environments): on error the
Go map is left untouched, so the environment is returned unchanged. -/
def defineIgn (e : Environment) (name : String) (value : Value) (isConst : Bool) : Environment :=
  match e.Define name value isConst with
  | .ok e' => e'
  | .error _ => e

/-! ### Value helpers (value.go) -/

/-- `TypeName` (value.go). -/
def TypeName : Value → String
  | .intV _ => "int"
  | .floatV _ => "float"
  | .strV _ => "string"
  | .boolV _ => "bool"
  | .nullV => "null"
  | .funcV _ _ _ _ => "function"
  | .classV _ => "class"
  | .objectV _ _ => "object"
  | .arrayV _ => "array"
  | .mapV _ _ => "map"

/-- `IsTruthy` (value.go): JS/Python-style truthiness. -/
def IsTruthy : Value → Bool
  | .nullV => false
  | .boolV b => b
  | .intV n => n != 0
  | .floatV q => q != 0
  | .strV s => s != ""
  | _ => true

/-- `ToFloat64` (value.go): `float64(int64(v))` for ints — the rounded image
under `roundInt53` — and the identity on floats. -/
def ToFloat64 : Value → Option ℚ
  | .intV n => some ((roundInt53 n : Int) : ℚ)
  | .floatV q => some q
  | _ => none

/-- `ToInt64` (value.go): identity on ints, the `int64(float64)` conversion
on floats. -/
def ToInt64 : Value → Option Int
  | .intV n => some n
  | .floatV q => some (int64ofF64 q)
  | _ => none

/-- `FloatVal.String()` uses Go `%g` (shortest round-trip form); no claim
depends on float formatting, so the rational printer stands in for it. -/
def displayFloat (q : ℚ) : String := toString q

mutual
/-- The `String()` display rule of each value (value.go). -/
def display : Value → String
  | .intV n => toString n
  | .floatV q => displayFloat q
  | .strV s => s
  | .boolV b => if b then "true" else "false"
  | .nullV => "null"
  | .funcV name _ _ _ => "<function " ++ name ++ ">"
  | .classV c => "<class " ++ c.name ++ ">"
  | .objectV c _ => "<object " ++ c.name ++ ">"
  | .arrayV es => "[" ++ String.intercalate ", " (displayList es) ++ "]"
  | .mapV _ vals => "\x7b" ++ String.intercalate ", " (displayEntries vals) ++ "\x7d"
/-- Array elements, `String` elements quoted (ArrayVal.String). -/
def displayList : List Value → List String
  | [] => []
  | v :: rest =>
    (match v with
     | .strV s => "\"" ++ s ++ "\""
     | _ => display v) :: displayList rest
/-- Map entries, string values quoted (MapVal.String); Go iterates `Keys` and
looks each key up, which on the maps the interpreter builds lists the same
entries in the same order as the underlying association list. -/
def displayEntries : List (String × Value) → List String
  | [] => []
  | (k, v) :: rest =>
    (match v with
     | .strV s => "\"" ++ k ++ "\": \"" ++ s ++ "\""
     | _ => "\"" ++ k ++ "\": " ++ display v) :: displayEntries rest
end

/-- `valuesEqual` (interpreter): structural on primitives, numeric
cross-kind Int/Float comparison by float value. The Go fallback is reference
equality on heap values; the embedding carries no addresses and no claim
exercises it, so distinct heap values compare unequal here. -/
def valuesEqual : Value → Value → Bool
  | .intV a, .intV b => a == b
  | .intV a, .floatV b => ((roundInt53 a : Int) : ℚ) == b
  | .floatV a, .floatV b => a == b
  | .floatV a, .intV b => a == ((roundInt53 b : Int) : ℚ)
  | .strV a, .strV b => a == b
  | .boolV a, .boolV b => a == b
  | .nullV, .nullV => true
  | _, _ => false

/-! ### Runtime errors (interpreter) -/

/-- The token text of each binary operator (token.Kind.String()). -/
def BinOp.text : BinOp → String
  | .plus => "+" | .minus => "-" | .star => "*" | .slash => "/" | .percent => "%"
  | .eq => "==" | .neq => "!=" | .lt => "<" | .lte => "<=" | .gt => ">" | .gte => ">="
  | .and => "&&" | .or => "||"

/-- The `RuntimeError` values raised by the embedded fragment, kept
structured; `message` renders the exact `runtimeErr` format text. -/
inductive RErr where
  | envErr (e : EnvError)
  | undefinedVariable (name : String)
  | cannotApply (op lt rt : String)
  | divisionByZero
  | moduloRequiresIntegers
  | unknownBinaryOperator (op : String)
  | arityMismatch (fname : String) (want got : Nat)
  | cannotCallType (t : String)
  | undefinedClass (name : String)
  | notAClass (name : String)
  | ctorArity (cls : String) (want got : Nat)
  | noCtorWithArgs (cls : String) (got : Nat)
  | substringArgs (got : Nat)
  | substringStartNotInt
  | substringEndNotInt
  deriving DecidableEq, Repr

/-- The `Message` field of each runtime error (the `runtimeErr` format
strings in the interpreter). -/
def RErr.message : RErr → String
  | .envErr e => e.message
  | .undefinedVariable n => s!"undefined variable '{n}'"
  | .cannotApply op lt rt => s!"cannot apply '{op}' to '{lt}' and '{rt}'"
  | .divisionByZero => "division by zero"
  | .moduloRequiresIntegers => "modulo requires integer operands"
  | .unknownBinaryOperator op => s!"unknown binary operator: {op}"
  | .arityMismatch f w g => s!"{f}() expects {w} arguments, got {g}"
  | .cannotCallType t => s!"cannot call value of type '{t}'"
  | .undefinedClass n => s!"undefined class '{n}'"
  | .notAClass n => s!"'{n}' is not a class"
  | .ctorArity c w g => s!"{c} constructor expects {w} arguments, got {g}"
  | .noCtorWithArgs c g => s!"{c} has no constructor but was called with {g} arguments"
  | .substringArgs g => s!"substring() expects 1-2 arguments, got {g}"
  | .substringStartNotInt => "substring() start must be an integer"
  | .substringEndNotInt => "substring() end must be an integer"

/-- The two error kinds travelling the interpreter's out-of-band channel:
`RuntimeError` and `ThrownError` (a user value raised by `throw`). -/
inductive Err where
  | runtime (e : RErr)
  | thrown (v : Value)

/-- Control flow signals (`ExecSignal`). -/
inductive Signal where
  | sigNone | sigReturn | sigBreak | sigContinue
  deriving DecidableEq, Repr

/-- `ExecResult`: a signal and an optional value (Go leaves `Value` nil
except for `return`; the embedding stores `nullV` there). -/
structure ExecResult where
  signal : Signal
  value : Value

/-- `resultNone`. -/
def resultNone : ExecResult := ⟨.sigNone, .nullV⟩

/-! ### evalBinary, operand part (interpreter lines 480-551)

`evalBinary` first short-circuits `&&`/`||` (see `evalLogical` below), then
evaluates both operands; this function is the remainder of `evalBinary`
applied to the two operand values. -/

/-- Is the value a `StringVal`? (`left.(StringVal)` type assertions). -/
def isStringVal : Value → Bool
  | .strV _ => true
  | _ => false

/-- Is the value an `IntVal`? (`left.(IntVal)` type assertions). -/
def isIntVal : Value → Bool
  | .intV _ => true
  | _ => false

/-- Is the value a `FloatVal`? -/
def isFloatVal : Value → Bool
  | .floatV _ => true
  | _ => false

/-- The operand-level part of `evalBinary`: string concatenation for `+` with
a string side, equality, then numeric operations through `ToFloat64` with the
both-`Int` special case. -/
def evalBinaryOp (op : BinOp) (left right : Value) : Except RErr Value :=
  if op = .plus ∧ (isStringVal left ∨ isStringVal right) then
    .ok (.strV (display left ++ display right))
  else if op = .eq then .ok (.boolV (valuesEqual left right))
  else if op = .neq then .ok (.boolV (! valuesEqual left right))
  else
    match ToFloat64 left, ToFloat64 right with
    | some leftF, some rightF =>
      let bothInt := isIntVal left && isIntVal right
      match op with
      | .plus =>
        if bothInt then .ok (.intV (wrap64 (int64ofF64 leftF + int64ofF64 rightF)))
        else .ok (.floatV (fadd leftF rightF))
      | .minus =>
        if bothInt then .ok (.intV (wrap64 (int64ofF64 leftF - int64ofF64 rightF)))
        else .ok (.floatV (fsub leftF rightF))
      | .star =>
        if bothInt then .ok (.intV (wrap64 (int64ofF64 leftF * int64ofF64 rightF)))
        else .ok (.floatV (fmul leftF rightF))
      | .slash =>
        if rightF = 0 then .error .divisionByZero
        else if bothInt then
          .ok (.intV (wrap64 (Int.tdiv (int64ofF64 leftF) (int64ofF64 rightF))))
        else .ok (.floatV (fdivQ leftF rightF))
      | .percent =>
        if !bothInt then .error .moduloRequiresIntegers
        else if int64ofF64 rightF = 0 then .error .divisionByZero
        else .ok (.intV (Int.tmod (int64ofF64 leftF) (int64ofF64 rightF)))
      | .lt => .ok (.boolV (decide (leftF < rightF)))
      | .lte => .ok (.boolV (decide (leftF ≤ rightF)))
      | .gt => .ok (.boolV (decide (leftF > rightF)))
      | .gte => .ok (.boolV (decide (leftF ≥ rightF)))
      | op => .error (.unknownBinaryOperator op.text)
    | _, _ => .error (.cannotApply op.text (TypeName left) (TypeName right))

/-! ### Ordered-map operations (evalMapLiteral and execAssign, map cases)

The three-line pattern "append the key to `Keys` if absent from `Values`,
then store into `Values`" appears verbatim in `evalMapLiteral`, in the
`MemberExpr`/`MapVal` branch of `execAssign` and in the
`IndexExpr`/`MapVal` branch of `execAssign`; `mapSetKV` is that pattern. -/

/-- Append `key` to the ordered key list only when new, then store `v`. -/
def mapSetKV (keys : List String) (values : List (String × Value)) (key : String) (v : Value) :
    List String × List (String × Value) :=
  ((if (lookupA values key).isSome then keys else keys ++ [key]), insertA values key v)

/-- The loop of `evalMapLiteral`: `mapSetKV` for each entry in order. -/
def mapFold (m : List String × List (String × Value)) :
    List (String × Value) → List String × List (String × Value)
  | [] => m
  | (k, v) :: rest => mapFold (mapSetKV m.1 m.2 k v) rest

/-- `evalMapLiteral` over the literal entries (keys already checked to be
string literals, values evaluated left-to-right; both are orthogonal to the
ordering behaviour embedded here), starting from the empty map. -/
def evalMapLiteral (entries : List (String × Value)) :
    List String × List (String × Value) :=
  mapFold ([], []) entries

/-- Specification-side notion for the map claims: the value of the last
entry for `k` in a literal ("last value wins"). -/
def lastVal : List (String × Value) → String → Option Value
  | [], _ => none
  | (k', v) :: rest, k =>
    match lastVal rest k with
    | some v' => some v'
    | none => if k' = k then some v else none

/-- Specification-side notion for the map claims: first occurrences of the
keys, in order, skipping keys already `seen`. -/
def firstOccurFrom (seen : List String) : List String → List String
  | [] => []
  | k :: rest =>
    if k ∈ seen then firstOccurFrom seen rest
    else k :: firstOccurFrom (k :: seen) rest

/-- First occurrences of the keys, in order ("duplicate keys keep first
insertion position"). -/
def firstOccur (ks : List String) : List String := firstOccurFrom [] ks

/-- The keys a literal's loop appends to a map whose value mapping is
`values`, in order of first appearance. -/
def newKeys (values : List (String × Value)) : List (String × Value) → List String
  | [] => []
  | (k, v) :: rest =>
    if (lookupA values k).isSome then newKeys (insertA values k v) rest
    else k :: newKeys (insertA values k v) rest

/-- The map invariant of the claims: the ordered key list is duplicate-free
and lists exactly the keys of the value mapping. -/
def WFmap (keys : List String) (values : List (String × Value)) : Prop :=
  keys.Nodup ∧ ∀ k, k ∈ keys ↔ (lookupA values k).isSome

/-! ### The tree walk (interpreter)

Mutually recursive with an explicit fuel parameter; every function consumes
one unit of fuel per call and returns `none` when fuel runs out (`none` is
never identified with an error or a crash). -/

/-- `findConstructor`: walk the super chain to the nearest constructor,
returning it with its owning class. -/
def findConstructor : ClassData → Option ((List String × List Stmt) × ClassData)
  | .mk n c env sup =>
    match c with
    | some cd => some (cd, .mk n c env sup)
    | none =>
      match sup with
      | some s => findConstructor s
      | none => none

/-- The parameter-binding loops of `callFunc` and `evalNew`:
`env.Define(param, args[idx], false)` for each parameter, the returned error
ignored. -/
def bindParams (params : List String) (args : List Value) (e : Environment) : Environment :=
  (params.zip args).foldl (fun acc p => defineIgn acc p.1 p.2 false) e

mutual

/-- `evalExpr`: expression dispatch. -/
def evalExpr : Nat → Environment → Expr → Option (Except Err Value)
  | 0, _, _ => none
  | fuel + 1, env, e =>
    match e with
    | .intLiteral n => some (.ok (.intV n))
    | .floatLiteral q => some (.ok (.floatV q))
    | .stringLiteral s => some (.ok (.strV s))
    | .boolLiteral b => some (.ok (.boolV b))
    | .nullLiteral => some (.ok .nullV)
    | .identExpr name =>
      match env.Get name with
      | some v => some (.ok v)
      | none => some (.error (.runtime (.undefinedVariable name)))
    | .binaryExpr op l r =>
      -- Short-circuit for logical operators
      if op = .and ∨ op = .or then evalLogical fuel env op l r
      else
        match evalExpr fuel env l with
        | none => none
        | some (.error er) => some (.error er)
        | some (.ok left) =>
          match evalExpr fuel env r with
          | none => none
          | some (.error er) => some (.error er)
          | some (.ok right) =>
            match evalBinaryOp op left right with
            | .ok v => some (.ok v)
            | .error re => some (.error (.runtime re))
    | .callExpr callee args =>
      -- evalCall: arguments are evaluated first; the super/member branches
      -- are unreachable for this AST fragment
      match evalArgs fuel env args with
      | none => none
      | some (.error er) => some (.error er)
      | some (.ok argVals) =>
        match evalExpr fuel env callee with
        | none => none
        | some (.error er) => some (.error er)
        | some (.ok calleeVal) => callValue fuel calleeVal argVals
    | .newExpr className args => evalNew fuel env className args

/-- `evalLogical`: short-circuiting `||` and `&&`, returning the determining
side's original value. -/
def evalLogical : Nat → Environment → BinOp → Expr → Expr → Option (Except Err Value)
  | 0, _, _, _, _ => none
  | fuel + 1, env, op, l, r =>
    match evalExpr fuel env l with
    | none => none
    | some (.error er) => some (.error er)
    | some (.ok left) =>
      if op = .or then
        if IsTruthy left then some (.ok left) -- short-circuit
        else evalExpr fuel env r
      else
        -- AND
        if ! IsTruthy left then some (.ok left) -- short-circuit
        else evalExpr fuel env r

/-- The argument-evaluation loop of `evalCall`/`evalNew` (left-to-right,
stopping at the first error). -/
def evalArgs : Nat → Environment → List Expr → Option (Except Err (List Value))
  | 0, _, _ => none
  | _ + 1, _, [] => some (.ok [])
  | fuel + 1, env, e :: rest =>
    match evalExpr fuel env e with
    | none => none
    | some (.error er) => some (.error er)
    | some (.ok v) =>
      match evalArgs fuel env rest with
      | none => none
      | some (.error er) => some (.error er)
      | some (.ok vs) => some (.ok (v :: vs))

/-- `callValue`: dispatch on the callee's runtime type. -/
def callValue : Nat → Value → List Value → Option (Except Err Value)
  | 0, _, _ => none
  | fuel + 1, callee, args =>
    match callee with
    | .funcV name params body closure => callFunc fuel name params body closure args
    | _ => some (.error (.runtime (.cannotCallType (TypeName callee))))

/-- `callFunc`: arity check, fresh scope from the closure, parameter binding
(`Define` errors ignored), body execution, `Return` signal to value. -/
def callFunc : Nat → String → List String → List Stmt → Environment → List Value →
    Option (Except Err Value)
  | 0, _, _, _, _, _ => none
  | fuel + 1, name, params, body, closure, args =>
    if args.length ≠ params.length then
      some (.error (.runtime (.arityMismatch name params.length args.length)))
    else
      let funcEnv := bindParams params args (.mk [] [] (some closure))
      match execBlock fuel funcEnv body with
      | none => none
      | some (.error er) => some (.error er)
      | some (.ok result) =>
        if result.signal = .sigReturn then some (.ok result.value)
        else some (.ok .nullV)

/-- `evalNew`: resolve the class, evaluate arguments, allocate the object,
run the nearest constructor (whose `Return` signal ends it early but whose
value is discarded), and return the object. -/
def evalNew : Nat → Environment → String → List Expr → Option (Except Err Value)
  | 0, _, _, _ => none
  | fuel + 1, env, className, argExprs =>
    match env.Get className with
    | none => some (.error (.runtime (.undefinedClass className)))
    | some classVal =>
      match classVal with
      | .classV cls =>
        match evalArgs fuel env argExprs with
        | none => none
        | some (.error er) => some (.error er)
        | some (.ok args) =>
          let obj := Value.objectV cls []
          match findConstructor cls with
          | some (ctor, ctorClass) =>
            if args.length ≠ ctor.1.length then
              some (.error (.runtime (.ctorArity className ctor.1.length args.length)))
            else
              let ctorEnv :=
                bindParams ctor.1 args
                  (defineIgn
                    (defineIgn (.mk [] [] (some ctorClass.env)) "this" obj true)
                    "__class__" (.classV ctorClass) true)
              match execBlock fuel ctorEnv ctor.2 with
              | none => none
              | some (.error er) => some (.error er)
              | some (.ok _result) =>
                -- a SigReturn ends the constructor early, but its value is
                -- dropped: the new object is the result
                some (.ok obj)
          | none =>
            if args.length > 0 then
              some (.error (.runtime (.noCtorWithArgs className args.length)))
            else some (.ok obj)
      | _ => some (.error (.runtime (.notAClass className)))

/-- `execStmt`: statement dispatch. The environment is returned next to the
result so that `Define`'s effect on the current scope is threaded. -/
def execStmt : Nat → Environment → Stmt → Option (Except Err (ExecResult × Environment))
  | 0, _, _ => none
  | fuel + 1, env, s =>
    match s with
    | .exprStmt e =>
      match evalExpr fuel env e with
      | none => none
      | some (.error er) => some (.error er)
      | some (.ok _) => some (.ok (resultNone, env))
    | .varDeclStmt name isConst init =>
      match (match init with
             | some e => evalExpr fuel env e
             | none => some (.ok .nullV)) with
      | none => none
      | some (.error er) => some (.error er)
      | some (.ok val) =>
        match env.Define name val isConst with
        | .error ee => some (.error (.runtime (.envErr ee)))
        | .ok env' => some (.ok (resultNone, env'))
    | .returnStmt value =>
      match (match value with
             | some e => evalExpr fuel env e
             | none => some (.ok .nullV)) with
      | none => none
      | some (.error er) => some (.error er)
      | some (.ok v) => some (.ok (⟨.sigReturn, v⟩, env))
    | .breakStmt => some (.ok (⟨.sigBreak, .nullV⟩, env))
    | .continueStmt => some (.ok (⟨.sigContinue, .nullV⟩, env))
    | .blockStmt stmts =>
      match execBlock fuel (.mk [] [] (some env)) stmts with
      | none => none
      | some (.error er) => some (.error er)
      | some (.ok r) => some (.ok (r, env))
    | .tryStmt body catchParam catchBody =>
      match execTry fuel env body catchParam catchBody with
      | none => none
      | some (.error er) => some (.error er)
      | some (.ok r) => some (.ok (r, env))
    | .throwStmt e =>
      -- execThrow: evaluate the value, raise it as a ThrownError
      match evalExpr fuel env e with
      | none => none
      | some (.error er) => some (.error er)
      | some (.ok v) => some (.error (.thrown v))

/-- `execBlock`: run the statements in the given block environment,
propagating the first non-`None` signal (the caller's environment is
untouched, as in Go where it is saved and restored). -/
def execBlock : Nat → Environment → List Stmt → Option (Except Err ExecResult)
  | 0, _, _ => none
  | _ + 1, _, [] => some (.ok resultNone)
  | fuel + 1, env, s :: rest =>
    match execStmt fuel env s with
    | none => none
    | some (.error er) => some (.error er)
    | some (.ok (result, env')) =>
      if result.signal ≠ .sigNone then some (.ok result) -- propagate signal
      else execBlock fuel env' rest

/-- `execTry`: run the body in a child environment; on error run the catch
body (when present) in a child environment with the catch parameter (when
present) bound to the thrown value, or to the runtime error's message as a
`String`; rethrow when there is no catch body. -/
def execTry : Nat → Environment → List Stmt → String → Option (List Stmt) →
    Option (Except Err ExecResult)
  | 0, _, _, _, _ => none
  | fuel + 1, env, body, catchParam, catchBody =>
    match execBlock fuel (.mk [] [] (some env)) body with
    | none => none
    | some (.ok result) => some (.ok result)
    | some (.error err) =>
      -- Error occurred - catch it
      match catchBody with
      | some cb =>
        let errVal : Value :=
          match err with
          | .thrown v => v
          | .runtime re => .strV re.message
        let catchEnv : Environment :=
          if catchParam ≠ "" then defineIgn (.mk [] [] (some env)) catchParam errVal false
          else .mk [] [] (some env)
        execBlock fuel catchEnv cb
      | none => some (.error err) -- re-throw if no catch

end

/-! ### The `substring` string method (callStringMethod, lines 1272-1296)

Strings are byte sequences in Go; the embedded alphabet is single-byte
characters, so Lean's character count coincides with Go's byte length. A Go
slice expression `s[start:end]` requires `0 ≤ start ≤ end ≤ len(s)` and
panics otherwise; the panic is the `crash` outcome. -/

/-- Outcome of a string-method call: a value, a Go `error`, or a panic. -/
inductive CallRes where
  | ok (v : Value)
  | err (e : RErr)
  | crash

/-- Go `s[start:end]`: the byte substring when the bounds are admissible, a
panic (`none`) otherwise. -/
def goSlice (s : String) (start endI : Int) : Option String :=
  if 0 ≤ start ∧ start ≤ endI ∧ endI ≤ (s.length : Int) then
    some (String.mk ((s.toList.drop start.toNat).take (endI - start).toNat))
  else none

/-- The tail of the `substring` case once `start` and `end` are read: clamp
negative `start` to 0, clamp `end` above the length down to the length, swap
when `start > end`, then slice. -/
def substringCore (s : String) (start0 end0 : Int) : CallRes :=
  let start1 := if start0 < 0 then 0 else start0
  let end1 := if end0 > (s.length : Int) then (s.length : Int) else end0
  let se := if start1 > end1 then (end1, start1) else (start1, end1)
  match goSlice s se.1 se.2 with
  | some out => .ok (.strV out)
  | none => .crash

/-- The `substring` case of `callStringMethod`: argument-count and
integer-argument checks, then `substringCore`. -/
def substringMethod (s : String) (args : List Value) : CallRes :=
  if args.length < 1 ∨ args.length > 2 then .err (.substringArgs args.length)
  else
    match args with
    | [arg0] =>
      match ToInt64 arg0 with
      | none => .err .substringStartNotInt
      | some start => substringCore s start (s.length : Int)
    | [arg0, arg1] =>
      match ToInt64 arg0 with
      | none => .err .substringStartNotInt
      | some start =>
        match ToInt64 arg1 with
        | none => .err .substringEndNotInt
        | some endI => substringCore s start endI
    | _ => .err (.substringArgs args.length)

/-! ## Lexer (internal/lexer/lexer.go)

The token-kind table follows internal/token; the repository's token file
predates the template-string kinds, which the lexer uses and the spec's token
table (§6.1) lists, so those four kinds follow the spec. Spans are location
bookkeeping and are dropped from tokens; diagnostics are kept as their stable
codes (`E1001`-`E1003`). Source bytes are characters with code points below
256; `advance` indexes `l.source[l.pos]` without a bounds check, so calling
it at end of input is a panic (`crash`). -/

/-- Token kinds (internal/token.Kind plus the four template kinds of §6.1). -/
inductive TokKind where
  | ILLEGAL | EOF | NEWLINE
  | IDENT | INT | FLOAT | STRING
  | TEMPLATE_LITERAL | TEMPLATE_HEAD | TEMPLATE_MIDDLE | TEMPLATE_TAIL
  | ASSIGN | PLUS | MINUS | STAR | SLASH | PERCENT | BANG
  | EQ | NEQ | LT | LTE | GT | GTE | AND | OR
  | PLUS_ASSIGN | MINUS_ASSIGN | STAR_ASSIGN | SLASH_ASSIGN
  | QUESTION | ARROW
  | LPAREN | RPAREN | LBRACE | RBRACE | LBRACKET | RBRACKET
  | COMMA | DOT | SEMICOLON | COLON
  | KW_IF | KW_ELSE | KW_WHILE | KW_FOR | KW_FUNCTION | KW_RETURN
  | KW_BREAK | KW_CONTINUE | KW_VAR | KW_CONST | KW_CLASS | KW_NEW
  | KW_CONSTRUCTOR | KW_THIS | KW_TRUE | KW_FALSE | KW_NULL
  | KW_TRY | KW_CATCH | KW_THROW | KW_EXTENDS | KW_SUPER | KW_OF
  deriving DecidableEq, Repr

/-- `LookupIdent`: keyword table lookup, defaulting to `IDENT`. -/
def LookupIdent (ident : String) : TokKind :=
  match ident with
  | "if" => .KW_IF
  | "else" => .KW_ELSE
  | "while" => .KW_WHILE
  | "for" => .KW_FOR
  | "function" => .KW_FUNCTION
  | "return" => .KW_RETURN
  | "break" => .KW_BREAK
  | "continue" => .KW_CONTINUE
  | "var" => .KW_VAR
  | "const" => .KW_CONST
  | "class" => .KW_CLASS
  | "new" => .KW_NEW
  | "constructor" => .KW_CONSTRUCTOR
  | "this" => .KW_THIS
  | "true" => .KW_TRUE
  | "false" => .KW_FALSE
  | "null" => .KW_NULL
  | "try" => .KW_TRY
  | "catch" => .KW_CATCH
  | "throw" => .KW_THROW
  | "extends" => .KW_EXTENDS
  | "super" => .KW_SUPER
  | "of" => .KW_OF
  | _ => .IDENT

/-- A token: kind and lexeme (span dropped). -/
structure Token where
  kind : TokKind
  lexeme : String
  deriving DecidableEq, Repr

/-- Lexer state (the `Lexer` struct; the filename plays no role here). -/
structure Lexer where
  source : List Char
  pos : Nat
  line : Nat
  col : Nat
  diags : List String
  templateStack : List Int
  deriving Repr

/-- `New`: initial lexer state. -/
def Lexer.New (source : List Char) : Lexer := ⟨source, 0, 1, 1, [], []⟩

/-- Outcome of a lexer step: a result, a Go panic, or exhausted fuel (the
loops below carry fuel; running out is reported separately and is never
conflated with a panic). -/
inductive LexM (α : Type) where
  | ok (a : α)
  | crash
  | fuelOut
  deriving Repr

/-- `peek`: current character, or the zero byte at end. -/
def Lexer.peek (l : Lexer) : Char :=
  if l.pos ≥ l.source.length then Char.ofNat 0 else l.source.getD l.pos (Char.ofNat 0)

/-- `peekNext`: character after the current one, or the zero byte at end. -/
def Lexer.peekNext (l : Lexer) : Char :=
  if l.pos + 1 ≥ l.source.length then Char.ofNat 0 else l.source.getD (l.pos + 1) (Char.ofNat 0)

/-- `advance`: consume one character, updating line/column. The Go method
reads `l.source[l.pos]` with no bounds check, so at end of input it panics. -/
def Lexer.advance (l : Lexer) : LexM (Char × Lexer) :=
  if l.pos < l.source.length then
    let ch := l.source.getD l.pos (Char.ofNat 0)
    if ch = '\n' then
      .ok (ch, { l with pos := l.pos + 1, line := l.line + 1, col := 1 })
    else
      .ok (ch, { l with pos := l.pos + 1, col := l.col + 1 })
  else .crash

/-- `addError`: record a diagnostic (by code). -/
def Lexer.addError (l : Lexer) (code : String) : Lexer :=
  { l with diags := l.diags ++ [code] }

/-- `isDigit`. -/
def isDigit (ch : Char) : Bool := '0' ≤ ch ∧ ch ≤ '9'

/-- `unicode.IsLetter` restricted to the code points a single byte can carry
(Go decodes the byte as a rune): the Latin-1 letters. -/
def isLetterByte (c : Nat) : Bool :=
  c = 0xAA ∨ c = 0xB5 ∨ c = 0xBA ∨ (0xC0 ≤ c ∧ c ≤ 0xD6) ∨
    (0xD8 ≤ c ∧ c ≤ 0xF6) ∨ (0xF8 ≤ c ∧ c ≤ 0xFF)

/-- `isIdentStart`: `_`, ASCII letters, or a non-ASCII byte decoding to a
Unicode letter. -/
def isIdentStart (ch : Char) : Bool :=
  if ch = '_' ∨ ('a' ≤ ch ∧ ch ≤ 'z') ∨ ('A' ≤ ch ∧ ch ≤ 'Z') then true
  else if 0x80 ≤ ch.toNat then isLetterByte ch.toNat
  else false

/-- `isIdentPart`. -/
def isIdentPart (ch : Char) : Bool := isIdentStart ch || isDigit ch

/-- `skipWhitespace`: spaces, tabs and `\r` (not newlines). -/
def skipWhitespace : Nat → Lexer → LexM Lexer
  | 0, _ => .fuelOut
  | fuel + 1, l =>
    if l.pos < l.source.length then
      let ch := l.source.getD l.pos (Char.ofNat 0)
      if ch = ' ' ∨ ch = '\t' ∨ ch = '\r' then
        match l.advance with
        | .ok (_, l') => skipWhitespace fuel l'
        | .crash => .crash
        | .fuelOut => .fuelOut
      else .ok l
    else .ok l

/-- `skipLineComment`: consume to the end of the line (exclusive). -/
def skipLineComment : Nat → Lexer → LexM Lexer
  | 0, _ => .fuelOut
  | fuel + 1, l =>
    if l.pos < l.source.length ∧ l.source.getD l.pos (Char.ofNat 0) ≠ '\n' then
      match l.advance with
      | .ok (_, l') => skipLineComment fuel l'
      | .crash => .crash
      | .fuelOut => .fuelOut
    else .ok l

/-- `readTemplateText`: read template text until a backtick or `${` (or end
of input), decoding the template escape sequences. -/
def readTemplateText : Nat → Lexer → List Char → LexM (List Char × Lexer)
  | 0, _, _ => .fuelOut
  | fuel + 1, l, text =>
    if l.pos < l.source.length then
      let ch := l.peek
      if ch = '`' then .ok (text, l)
      else if ch = '$' ∧ l.peekNext = '{' then .ok (text, l)
      else if ch = '\\' then
        match l.advance with
        | .crash => .crash
        | .fuelOut => .fuelOut
        | .ok (_, l1) =>
          if l1.pos ≥ l1.source.length then .ok (text, l1)
          else
            let esc := l1.peek
            let text' :=
              if esc = 'n' then text ++ ['\n']
              else if esc = 't' then text ++ ['\t']
              else if esc = '\\' then text ++ ['\\']
              else if esc = '`' then text ++ ['`']
              else if esc = '$' then text ++ ['$']
              else text ++ ['\\', esc]
            match l1.advance with
            | .crash => .crash
            | .fuelOut => .fuelOut
            | .ok (_, l2) => readTemplateText fuel l2 text'
      else
        -- a raw newline: the Go code bumps line/col by hand before advance
        let l' := if ch = '\n' then { l with line := l.line + 1, col := 0 } else l
        match l'.advance with
        | .crash => .crash
        | .fuelOut => .fuelOut
        | .ok (_, l2) => readTemplateText fuel l2 (text ++ [ch])
    else .ok (text, l)

/-- `readTemplateStart`: after an opening backtick, read template text and
emit `TEMPLATE_LITERAL` (closed by a backtick) or `TEMPLATE_HEAD` (closed by
`${`, pushing a brace counter). When the text ran out at end of input the
code still advances twice for the assumed `${` — `advance` then panics. -/
def readTemplateStart (fuel : Nat) (l : Lexer) : LexM (Token × Lexer) :=
  match l.advance with -- consume opening backtick
  | .crash => .crash
  | .fuelOut => .fuelOut
  | .ok (_, l1) =>
    match readTemplateText fuel l1 [] with
    | .crash => .crash
    | .fuelOut => .fuelOut
    | .ok (text, l2) =>
      if l2.peek = '`' then
        match l2.advance with
        | .crash => .crash
        | .fuelOut => .fuelOut
        | .ok (_, l3) => .ok (⟨.TEMPLATE_LITERAL, String.mk text⟩, l3)
      else
        -- must be ${ — template with expressions
        match l2.advance with -- $
        | .crash => .crash
        | .fuelOut => .fuelOut
        | .ok (_, l3) =>
          match l3.advance with -- {
          | .crash => .crash
          | .fuelOut => .fuelOut
          | .ok (_, l4) =>
            .ok (⟨.TEMPLATE_HEAD, String.mk text⟩,
                 { l4 with templateStack := 0 :: l4.templateStack })

/-- `readString`'s scanning loop (after the opening quote). -/
def readStringLoop : Nat → Lexer → List Char → LexM (Token × Lexer)
  | 0, _, _ => .fuelOut
  | fuel + 1, l, value =>
    if l.pos < l.source.length then
      let ch := l.peek
      if ch = '"' then
        match l.advance with
        | .crash => .crash
        | .fuelOut => .fuelOut
        | .ok (_, l') => .ok (⟨.STRING, String.mk value⟩, l')
      else if ch = '\n' then
        .ok (⟨.STRING, String.mk value⟩, l.addError "E1001")
      else if ch = '\\' then
        match l.advance with
        | .crash => .crash
        | .fuelOut => .fuelOut
        | .ok (_, l1) =>
          let esc := l1.peek
          let step : List Char × Lexer :=
            if esc = 'n' then (value ++ ['\n'], l1)
            else if esc = 't' then (value ++ ['\t'], l1)
            else if esc = '\\' then (value ++ ['\\'], l1)
            else if esc = '"' then (value ++ ['"'], l1)
            else if esc = '0' then (value ++ [Char.ofNat 0], l1)
            else (value ++ [esc], l1.addError "E1002")
          match step.2.advance with
          | .crash => .crash
          | .fuelOut => .fuelOut
          | .ok (_, l2) => readStringLoop fuel l2 step.1
      else
        match l.advance with
        | .crash => .crash
        | .fuelOut => .fuelOut
        | .ok (_, l') => readStringLoop fuel l' (value ++ [ch])
    else .ok (⟨.STRING, String.mk value⟩, l.addError "E1001")

/-- `readString`: a double-quoted string literal. -/
def readString (fuel : Nat) (l : Lexer) : LexM (Token × Lexer) :=
  match l.advance with -- skip opening quote
  | .crash => .crash
  | .fuelOut => .fuelOut
  | .ok (_, l1) => readStringLoop fuel l1 []

/-- The digit-consuming loop of `readNumber`. -/
def readDigits : Nat → Lexer → LexM Lexer
  | 0, _ => .fuelOut
  | fuel + 1, l =>
    if l.pos < l.source.length ∧ isDigit l.peek then
      match l.advance with
      | .crash => .crash
      | .fuelOut => .fuelOut
      | .ok (_, l') => readDigits fuel l'
    else .ok l

/-- `readNumber`: an integer or float literal. -/
def readNumber (fuel : Nat) (l : Lexer) : LexM (Token × Lexer) :=
  let numStart := l.pos
  match readDigits fuel l with
  | .crash => .crash
  | .fuelOut => .fuelOut
  | .ok l1 =>
    -- check for a decimal point followed by a digit
    if l1.pos < l1.source.length ∧ l1.peek = '.' ∧ isDigit l1.peekNext then
      match l1.advance with -- skip the dot
      | .crash => .crash
      | .fuelOut => .fuelOut
      | .ok (_, l2) =>
        match readDigits fuel l2 with
        | .crash => .crash
        | .fuelOut => .fuelOut
        | .ok l3 =>
          .ok (⟨.FLOAT, String.mk ((l3.source.drop numStart).take (l3.pos - numStart))⟩, l3)
    else
      .ok (⟨.INT, String.mk ((l1.source.drop numStart).take (l1.pos - numStart))⟩, l1)

/-- The identifier-consuming loop of `readIdentifier`. -/
def readIdentChars : Nat → Lexer → LexM Lexer
  | 0, _ => .fuelOut
  | fuel + 1, l =>
    if l.pos < l.source.length ∧ isIdentPart l.peek then
      match l.advance with
      | .crash => .crash
      | .fuelOut => .fuelOut
      | .ok (_, l') => readIdentChars fuel l'
    else .ok l

/-- `readIdentifier`: an identifier or keyword. -/
def readIdentifier (fuel : Nat) (l : Lexer) : LexM (Token × Lexer) :=
  let identStart := l.pos
  match readIdentChars fuel l with
  | .crash => .crash
  | .fuelOut => .fuelOut
  | .ok l1 =>
    let lexeme := String.mk ((l1.source.drop identStart).take (l1.pos - identStart))
    .ok (⟨LookupIdent lexeme, lexeme⟩, l1)

/-- A single-character token result. -/
def tok1 (k : TokKind) (s : String) (l : Lexer) : LexM (Token × Lexer) := .ok (⟨k, s⟩, l)

/-- `readOperator`: operators, delimiters, the template-expression brace
tracking, and the `}` continuation back into template text. The `}` branch
that resumes template text advances twice for an assumed `${` when the text
ended at end of input — a panic, exactly as in `readTemplateStart`. -/
def readOperator (fuel : Nat) (l0 : Lexer) : LexM (Token × Lexer) :=
  match l0.advance with
  | .crash => .crash
  | .fuelOut => .fuelOut
  | .ok (ch, l) =>
    if ch = '(' then tok1 .LPAREN "(" l
    else if ch = ')' then tok1 .RPAREN ")" l
    else if ch = '{' then
      let l' :=
        match l.templateStack with
        | d :: rest => { l with templateStack := (d + 1) :: rest }
        | [] => l
      tok1 .LBRACE "\x7b" l'
    else if ch = '}' then
      match l.templateStack with
      | 0 :: rest =>
        -- closing a template expression — continue reading template text
        let l1 := { l with templateStack := rest }
        match readTemplateText fuel l1 [] with
        | .crash => .crash
        | .fuelOut => .fuelOut
        | .ok (text, l2) =>
          if l2.peek = '`' then
            match l2.advance with
            | .crash => .crash
            | .fuelOut => .fuelOut
            | .ok (_, l3) => .ok (⟨.TEMPLATE_TAIL, String.mk text⟩, l3)
          else
            -- must be ${ — another expression follows
            match l2.advance with -- $
            | .crash => .crash
            | .fuelOut => .fuelOut
            | .ok (_, l3) =>
              match l3.advance with -- {
              | .crash => .crash
              | .fuelOut => .fuelOut
              | .ok (_, l4) =>
                .ok (⟨.TEMPLATE_MIDDLE, String.mk text⟩,
                     { l4 with templateStack := 0 :: l4.templateStack })
      | d :: rest => tok1 .RBRACE "\x7d" { l with templateStack := (d - 1) :: rest }
      | [] => tok1 .RBRACE "\x7d" l
    else if ch = '[' then tok1 .LBRACKET "[" l
    else if ch = ']' then tok1 .RBRACKET "]" l
    else if ch = ',' then tok1 .COMMA "," l
    else if ch = '.' then tok1 .DOT "." l
    else if ch = ';' then tok1 .SEMICOLON ";" l
    else if ch = ':' then tok1 .COLON ":" l
    else if ch = '+' then
      if l.peek = '=' then
        match l.advance with
        | .ok (_, l') => tok1 .PLUS_ASSIGN "+=" l'
        | .crash => .crash
        | .fuelOut => .fuelOut
      else tok1 .PLUS "+" l
    else if ch = '-' then
      if l.peek = '=' then
        match l.advance with
        | .ok (_, l') => tok1 .MINUS_ASSIGN "-=" l'
        | .crash => .crash
        | .fuelOut => .fuelOut
      else tok1 .MINUS "-" l
    else if ch = '*' then
      if l.peek = '=' then
        match l.advance with
        | .ok (_, l') => tok1 .STAR_ASSIGN "*=" l'
        | .crash => .crash
        | .fuelOut => .fuelOut
      else tok1 .STAR "*" l
    else if ch = '/' then
      if l.peek = '=' then
        match l.advance with
        | .ok (_, l') => tok1 .SLASH_ASSIGN "/=" l'
        | .crash => .crash
        | .fuelOut => .fuelOut
      else tok1 .SLASH "/" l
    else if ch = '%' then tok1 .PERCENT "%" l
    else if ch = '!' then
      if l.peek = '=' then
        match l.advance with
        | .ok (_, l') => tok1 .NEQ "!=" l'
        | .crash => .crash
        | .fuelOut => .fuelOut
      else tok1 .BANG "!" l
    else if ch = '?' then tok1 .QUESTION "?" l
    else if ch = '=' then
      if l.peek = '=' then
        match l.advance with
        | .ok (_, l') => tok1 .EQ "==" l'
        | .crash => .crash
        | .fuelOut => .fuelOut
      else if l.peek = '>' then
        match l.advance with
        | .ok (_, l') => tok1 .ARROW "=>" l'
        | .crash => .crash
        | .fuelOut => .fuelOut
      else tok1 .ASSIGN "=" l
    else if ch = '<' then
      if l.peek = '=' then
        match l.advance with
        | .ok (_, l') => tok1 .LTE "<=" l'
        | .crash => .crash
        | .fuelOut => .fuelOut
      else tok1 .LT "<" l
    else if ch = '>' then
      if l.peek = '=' then
        match l.advance with
        | .ok (_, l') => tok1 .GTE ">=" l'
        | .crash => .crash
        | .fuelOut => .fuelOut
      else tok1 .GT ">" l
    else if ch = '&' then
      if l.peek = '&' then
        match l.advance with
        | .ok (_, l') => tok1 .AND "&&" l'
        | .crash => .crash
        | .fuelOut => .fuelOut
      else tok1 .ILLEGAL (String.mk [ch]) (l.addError "E1003")
    else if ch = '|' then
      if l.peek = '|' then
        match l.advance with
        | .ok (_, l') => tok1 .OR "||" l'
        | .crash => .crash
        | .fuelOut => .fuelOut
      else tok1 .ILLEGAL (String.mk [ch]) (l.addError "E1003")
    else tok1 .ILLEGAL (String.mk [ch]) (l.addError "E1003")

/-- `nextToken`: whitespace, end-of-input `EOF`, newline, comments (which
recurse), then the literal/identifier/operator readers. -/
def nextToken : Nat → Lexer → LexM (Token × Lexer)
  | 0, _ => .fuelOut
  | fuel + 1, l0 =>
    match skipWhitespace fuel l0 with
    | .crash => .crash
    | .fuelOut => .fuelOut
    | .ok l =>
      if l.pos ≥ l.source.length then .ok (⟨.EOF, ""⟩, l)
      else
        let ch := l.peek
        if ch = '\n' then
          match l.advance with
          | .crash => .crash
          | .fuelOut => .fuelOut
          | .ok (_, l') => .ok (⟨.NEWLINE, "\\n"⟩, l')
        else if ch = '/' ∧ l.peekNext = '/' then
          match skipLineComment fuel l with
          | .crash => .crash
          | .fuelOut => .fuelOut
          | .ok l' => nextToken fuel l'
        else if ch = '#' then
          match skipLineComment fuel l with
          | .crash => .crash
          | .fuelOut => .fuelOut
          | .ok l' => nextToken fuel l'
        else if ch = '"' then readString fuel l
        else if ch = '`' then readTemplateStart fuel l
        else if isDigit ch then readNumber fuel l
        else if isIdentStart ch then readIdentifier fuel l
        else readOperator fuel l

/-- The token-collecting loop of `Tokenize`. -/
def tokenizeLoop : Nat → Lexer → List Token → LexM (List Token × List String)
  | 0, _, _ => .fuelOut
  | fuel + 1, l, acc =>
    match nextToken fuel l with
    | .crash => .crash
    | .fuelOut => .fuelOut
    | .ok (tok, l') =>
      if tok.kind = .EOF then .ok (acc ++ [tok], l'.diags)
      else tokenizeLoop fuel l' (acc ++ [tok])

/-- `Tokenize`: scan the whole source, returning all tokens and the
diagnostics. The fuel bound is generous for every input evaluated below. -/
def Tokenize (source : List Char) : LexM (List Token × List String) :=
  tokenizeLoop (4 * source.length + 16) (Lexer.New source) []

/-! ## Helper lemmas -/

/-! ### Facts about the rounding model -/

theorem shiftExp_le (f : Nat) : ∀ n, 2 ^ 53 ≤ n → 2 ^ shiftExp f n ≤ n := by
  induction f with
  | zero => intro n h; simp only [shiftExp, pow_zero]; omega
  | succ f ih =>
    intro n h
    rw [shiftExp]
    rw [if_neg (by omega)]
    by_cases h2 : 2 ^ 53 ≤ n / 2
    · have := ih (n / 2) h2
      calc 2 ^ (shiftExp f (n / 2) + 1) = 2 ^ shiftExp f (n / 2) * 2 := by ring
        _ ≤ n / 2 * 2 := by omega
        _ ≤ n := by omega
    · have hz : shiftExp f (n / 2) = 0 := by
        cases f with
        | zero => rfl
        | succ f => rw [shiftExp, if_pos (by omega)]
      rw [hz]
      calc 2 ^ (0 + 1) = 2 := by norm_num
        _ ≤ n := by omega

theorem roundNat53_pos {n : Nat} (h : 0 < n) : 0 < roundNat53 n := by
  rw [roundNat53]
  by_cases hlt : n < 2 ^ 53
  · rwa [if_pos hlt]
  · rw [if_neg hlt]
    have hle : 2 ^ shiftExp 1024 n ≤ n := shiftExp_le 1024 n (by omega)
    have hq : 0 < n / 2 ^ shiftExp 1024 n := Nat.div_pos hle (Nat.pos_pow_of_pos _ (by norm_num))
    have hpow : 0 < 2 ^ shiftExp 1024 n := Nat.pos_pow_of_pos _ (by norm_num)
    by_cases hc : 2 * (n % 2 ^ shiftExp 1024 n) > 2 ^ shiftExp 1024 n ∨
        (2 * (n % 2 ^ shiftExp 1024 n) = 2 ^ shiftExp 1024 n ∧ n / 2 ^ shiftExp 1024 n % 2 = 1)
    · simp only [if_pos hc]
      positivity
    · simp only [if_neg hc]
      positivity

theorem roundNat53_eq_of_le {n : Nat} (h : n ≤ 2 ^ 53) : roundNat53 n = n := by
  by_cases hlt : n < 2 ^ 53
  · rw [roundNat53, if_pos hlt]
  · have hn : n = 2 ^ 53 := by omega
    subst hn
    decide

/-- `float64` conversion is exact on `int64` values of magnitude at most
`2^53`. -/
theorem roundInt53_eq_of_le {m : Int} (h : m.natAbs ≤ 2 ^ 53) : roundInt53 m = m := by
  rw [roundInt53]
  by_cases hm : m < 0
  · rw [if_pos hm, roundNat53_eq_of_le h]
    omega
  · rw [if_neg hm, roundNat53_eq_of_le h]
    omega

theorem roundInt53_ne_zero {m : Int} (h : m ≠ 0) : roundInt53 m ≠ 0 := by
  rw [roundInt53]
  have habs : 0 < m.natAbs := Int.natAbs_pos.mpr h
  have := roundNat53_pos habs
  by_cases hm : m < 0
  · rw [if_pos hm]; omega
  · rw [if_neg hm]; omega

theorem ratTrunc_intCast (m : Int) : ratTrunc (m : ℚ) = m := by
  rw [ratTrunc, Rat.intCast_num, Rat.intCast_den]
  exact Int.tdiv_one m

theorem intCast_rat_ne_zero {m : Int} (h : m ≠ 0) : (m : ℚ) ≠ 0 := by
  exact_mod_cast h

theorem int64ofF64_intCast (x : Int) :
    int64ofF64 (x : ℚ) =
      if x < -(2 ^ 63) ∨ 2 ^ 63 - 1 < x then -(2 ^ 63) else x := by
  rw [int64ofF64, ratTrunc_intCast]

theorem roundTrip64_eq_of_le {m : Int} (h : m.natAbs ≤ 2 ^ 53) : roundTrip64 m = m := by
  rw [roundTrip64, roundInt53_eq_of_le h, int64ofF64_intCast, if_neg]
  push_neg
  constructor <;> omega

theorem roundTrip64_ne_zero {m : Int} (h : m ≠ 0) : roundTrip64 m ≠ 0 := by
  rw [roundTrip64, int64ofF64_intCast]
  have hnz := roundInt53_ne_zero h
  by_cases hr : roundInt53 m < -(2 ^ 63) ∨ 2 ^ 63 - 1 < roundInt53 m
  · rw [if_pos hr]
    omega
  · rw [if_neg hr]
    exact hnz

theorem lookupA_insertA (l : List (String × Value)) (k k' : String) (v : Value) :
    lookupA (insertA l k v) k' = if k = k' then some v else lookupA l k' := by
  induction l with
  | nil => simp only [insertA, lookupA]
  | cons p rest ih =>
    by_cases h : p.1 = k
    · by_cases h' : k = k' <;> simp [insertA, lookupA, h, h', h ▸ h']
    · by_cases h' : p.1 = k' <;> by_cases h'' : k = k' <;>
        simp_all [insertA, lookupA]

theorem lookupA_insertA_self (l : List (String × Value)) (k : String) (v : Value) :
    lookupA (insertA l k v) k = some v := by
  simp [lookupA_insertA]

theorem lookupA_insertA_ne {k k' : String} (h : k ≠ k') (l : List (String × Value))
    (v : Value) : lookupA (insertA l k v) k' = lookupA l k' := by
  simp [lookupA_insertA, h]

theorem Get_mk (values : List (String × Value)) (consts : List String)
    (parent : Option Environment) (n : String) :
    (Environment.mk values consts parent).Get n =
      if (lookupA values n).isSome then lookupA values n
      else
        match parent with
        | some p => p.Get n
        | none => none := by
  rw [Environment.Get.eq_def]

theorem Set_mk (values : List (String × Value)) (consts : List String)
    (parent : Option Environment) (n : String) (v : Value) :
    (Environment.mk values consts parent).Set n v =
      if (lookupA values n).isSome then
        if n ∈ consts then (some (.cannotAssignConstant n), .mk values consts parent)
        else (none, .mk (insertA values n v) consts parent)
      else
        match parent with
        | some p =>
          match p.Set n v with
          | (err, p') => (err, .mk values consts (some p'))
        | none => (some (.undefinedVariable n), .mk values consts parent) := by
  rw [Environment.Set.eq_def]

theorem nearestConst_mk (values : List (String × Value)) (consts : List String)
    (parent : Option Environment) (n : String) :
    nearestConst (Environment.mk values consts parent) n =
      if (lookupA values n).isSome then some (decide (n ∈ consts))
      else
        match parent with
        | some p => nearestConst p n
        | none => none := by
  rw [nearestConst.eq_def]

theorem chainConcat_mk (values : List (String × Value)) (consts : List String)
    (parent : Option Environment) :
    chainConcat (Environment.mk values consts parent) =
      values ++ (match parent with
                 | some p => chainConcat p
                 | none => []) := by
  rw [chainConcat.eq_def]

theorem lookupA_append (l1 l2 : List (String × Value)) (k : String) :
    lookupA (l1 ++ l2) k =
      match lookupA l1 k with
      | some v => some v
      | none => lookupA l2 k := by
  induction l1 with
  | nil => simp [lookupA]
  | cons p rest ih =>
    by_cases h : p.1 = k <;> simp [lookupA, h, ih]

/-! ## Claims

Each claim of the specification audit gets exactly one theorem below
(counterexamples and witnesses next to it where the status calls for them). -/

/-- C1: the claim says `Tokenize` never panics and always returns a token
stream ending in `EOF`. The code violates it: when the input ends inside an
unterminated template string (`` `abc ``) or right after a template
expression (`` `${x} ``), `readTemplateStart` / `readOperator` assume a
`${` follows the template text and call `advance`, which indexes
`l.source[l.pos]` past the end of the source — a panic, not a diagnostic. -/
theorem C1_tokenize_panics_on_unterminated_template :
    Tokenize ("`abc".toList) = .crash ∧ Tokenize ("`${x}".toList) = .crash :=
  ⟨rfl, rfl⟩

/-- C8: the claim says `substring` clamps negative `start` and negative
`end` to 0, clamps `end` above the length, swaps when `start > end`, and
never fails or crashes. The code never clamps a negative `end` and never
clamps `start` above the length, so after the swap the Go slice expression
receives out-of-range bounds and panics: `"ab".substring(0, -3)` swaps to
`s[-3:0]` and `"ab".substring(5)` swaps to `s[2:5]`, both panics. -/
theorem C8_substring_panics_on_unclamped_bounds :
    substringMethod "ab" [.intV 0, .intV (-3)] = .crash ∧
    substringMethod "ab" [.intV 5] = .crash :=
  ⟨rfl, rfl⟩

/-- C2, counterexample: `Int + Int` is not exact 64-bit arithmetic for
operands above `2^53` — both operands pass through `float64`, so
`(2^53 + 1) + 2` evaluates to `2^53 + 2`, not `2^53 + 3`. Moreover `+` with
a non-numeric `String` operand concatenates instead of raising an error. -/
theorem C2_counterexample :
    evalBinaryOp .plus (.intV (2 ^ 53 + 1)) (.intV 2) = .ok (.intV 9007199254740994) ∧
    (2 ^ 53 + 1 + 2 : Int) = 9007199254740995 ∧
    (9007199254740994 : Int) ≠ 9007199254740995 ∧
    evalBinaryOp .plus (.strV "a") (.intV 1) = .ok (.strV "a1") :=
  ⟨rfl, by norm_num, by norm_num, rfl⟩

set_option maxHeartbeats 1600000 in
/-- C2 as amended: for `+ - * /` on two `Int` operands the result is, for
every i64 operand pair, the `Int` of wrapping 64-bit arithmetic applied to
the `int64(float64(·))` images of the operands (the conversion takes the
amd64 out-of-range result for operands within 512 of `2^63`), which
coincides with exact i64 arithmetic whenever both magnitudes are at most
`2^53` but not above (with `/` truncating toward zero and requiring a
nonzero divisor); a `Float` operand makes the result the `Float` of IEEE-754
double arithmetic; non-numeric operands are a runtime error, except that `+`
with a `String` operand concatenates the display forms of both operands. -/
theorem C2_numeric_binary_semantics (a b : Int) (lq rq : ℚ) (l r : Value) :
    (evalBinaryOp .plus (.intV a) (.intV b) =
      .ok (.intV (wrap64 (roundTrip64 a + roundTrip64 b)))) ∧
    (evalBinaryOp .minus (.intV a) (.intV b) =
      .ok (.intV (wrap64 (roundTrip64 a - roundTrip64 b)))) ∧
    (evalBinaryOp .star (.intV a) (.intV b) =
      .ok (.intV (wrap64 (roundTrip64 a * roundTrip64 b)))) ∧
    (b ≠ 0 →
      evalBinaryOp .slash (.intV a) (.intV b) =
        .ok (.intV (wrap64 (Int.tdiv (roundTrip64 a) (roundTrip64 b))))) ∧
    (a.natAbs ≤ 2 ^ 53 → b.natAbs ≤ 2 ^ 53 →
      evalBinaryOp .plus (.intV a) (.intV b) = .ok (.intV (wrap64 (a + b))) ∧
      evalBinaryOp .minus (.intV a) (.intV b) = .ok (.intV (wrap64 (a - b))) ∧
      evalBinaryOp .star (.intV a) (.intV b) = .ok (.intV (wrap64 (a * b))) ∧
      (b ≠ 0 →
        evalBinaryOp .slash (.intV a) (.intV b) = .ok (.intV (wrap64 (Int.tdiv a b))))) ∧
    (ToFloat64 l = some lq → ToFloat64 r = some rq →
      (isFloatVal l = true ∨ isFloatVal r = true) →
      evalBinaryOp .plus l r = .ok (.floatV (fadd lq rq)) ∧
      evalBinaryOp .minus l r = .ok (.floatV (fsub lq rq)) ∧
      evalBinaryOp .star l r = .ok (.floatV (fmul lq rq)) ∧
      (rq ≠ 0 → evalBinaryOp .slash l r = .ok (.floatV (fdivQ lq rq)))) ∧
    (∀ op, (op = BinOp.minus ∨ op = BinOp.star ∨ op = BinOp.slash) →
      (ToFloat64 l = none ∨ ToFloat64 r = none) →
      evalBinaryOp op l r = .error (.cannotApply op.text (TypeName l) (TypeName r))) ∧
    ((isStringVal l = true ∨ isStringVal r = true) →
      evalBinaryOp .plus l r = .ok (.strV (display l ++ display r))) ∧
    ((ToFloat64 l = none ∨ ToFloat64 r = none) →
      isStringVal l = false → isStringVal r = false →
      evalBinaryOp .plus l r = .error (.cannotApply "+" (TypeName l) (TypeName r))) := by
  have hgplus : evalBinaryOp .plus (.intV a) (.intV b) =
      .ok (.intV (wrap64 (roundTrip64 a + roundTrip64 b))) := by
    simp [evalBinaryOp, isStringVal, isIntVal, ToFloat64, roundTrip64]
  have hgminus : evalBinaryOp .minus (.intV a) (.intV b) =
      .ok (.intV (wrap64 (roundTrip64 a - roundTrip64 b))) := by
    simp [evalBinaryOp, isStringVal, isIntVal, ToFloat64, roundTrip64]
  have hgstar : evalBinaryOp .star (.intV a) (.intV b) =
      .ok (.intV (wrap64 (roundTrip64 a * roundTrip64 b))) := by
    simp [evalBinaryOp, isStringVal, isIntVal, ToFloat64, roundTrip64]
  have hgslash : ∀ _hbz : b ≠ 0,
      evalBinaryOp .slash (.intV a) (.intV b) =
        .ok (.intV (wrap64 (Int.tdiv (roundTrip64 a) (roundTrip64 b)))) := by
    intro hbz
    have hnz : ((roundInt53 b : Int) : ℚ) ≠ 0 :=
      intCast_rat_ne_zero (roundInt53_ne_zero hbz)
    simp [evalBinaryOp, isStringVal, isIntVal, ToFloat64, roundTrip64, hnz]
  refine ⟨hgplus, hgminus, hgstar, hgslash, ?_, ?_, ?_, ?_, ?_⟩
  · intro ha hb
    have hra := roundTrip64_eq_of_le ha
    have hrb := roundTrip64_eq_of_le hb
    refine ⟨?_, ?_, ?_, ?_⟩
    · rw [hgplus, hra, hrb]
    · rw [hgminus, hra, hrb]
    · rw [hgstar, hra, hrb]
    · intro hbz
      rw [hgslash hbz, hra, hrb]
  · intro hl hr hf
    have hbothInt : (isIntVal l && isIntVal r) = false := by
      rcases hf with hf | hf
      · cases l <;> simp_all [isFloatVal, isIntVal]
      · cases r <;> simp_all [isFloatVal, isIntVal]
    have hsl : isStringVal l = false := by
      cases l <;> simp_all [ToFloat64, isStringVal]
    have hsr : isStringVal r = false := by
      cases r <;> simp_all [ToFloat64, isStringVal]
    refine ⟨?_, ?_, ?_, ?_⟩
    · simp [evalBinaryOp, hl, hr, hsl, hsr, hbothInt]
    · simp [evalBinaryOp, hl, hr, hsl, hsr, hbothInt]
    · simp [evalBinaryOp, hl, hr, hsl, hsr, hbothInt]
    · intro hz
      simp [evalBinaryOp, hl, hr, hsl, hsr, hbothInt, hz]
  · rintro op (rfl | rfl | rfl) hn <;>
      rcases hn with hn | hn <;>
      cases hl' : ToFloat64 l <;> cases hr' : ToFloat64 r <;>
      simp_all [evalBinaryOp, BinOp.text]
  · intro hs
    rcases hs with hs | hs <;> simp [evalBinaryOp, hs]
  · intro hn hsl hsr
    rcases hn with hn | hn <;>
      cases hl' : ToFloat64 l <;> cases hr' : ToFloat64 r <;>
      simp_all [evalBinaryOp, BinOp.text]

/-- C2 witness: the amended semantics at concrete inputs, the general law
included at an operand in the conversion-overflow window near `2^63`. -/
theorem C2_witness :
    evalBinaryOp .plus (.intV 7) (.intV 2) = .ok (.intV (wrap64 (7 + 2))) ∧
    evalBinaryOp .minus (.intV (2 ^ 63 - 1)) (.intV 1) =
      .ok (.intV (wrap64 (roundTrip64 (2 ^ 63 - 1) - roundTrip64 1))) ∧
    evalBinaryOp .slash (.floatV 1) (.floatV 2) = .ok (.floatV (fdivQ 1 2)) ∧
    evalBinaryOp .minus (.strV "a") (.boolV true) =
      .error (.cannotApply "-" "string" "bool") ∧
    evalBinaryOp .plus (.strV "a") (.boolV true) =
      .ok (.strV (display (.strV "a") ++ display (.boolV true))) := by
  refine ⟨?_, ?_, ?_, ?_, ?_⟩
  · exact ((C2_numeric_binary_semantics 7 2 0 0 .nullV .nullV).2.2.2.2.1 (by norm_num)
      (by norm_num)).1
  · exact (C2_numeric_binary_semantics (2 ^ 63 - 1) 1 0 0 .nullV .nullV).2.1
  · exact (((C2_numeric_binary_semantics 0 0 1 2 (.floatV 1)
      (.floatV 2)).2.2.2.2.2.1 rfl rfl (Or.inl rfl)).2.2.2 (by norm_num))
  · exact ((C2_numeric_binary_semantics 0 0 0 0 (.strV "a")
      (.boolV true)).2.2.2.2.2.2.1 .minus (Or.inl rfl) (Or.inl rfl))
  · exact ((C2_numeric_binary_semantics 0 0 0 0 (.strV "a")
      (.boolV true)).2.2.2.2.2.2.2.1 (Or.inl rfl))

/-- C6, counterexample: for Int operands above `2^53` the `%` result is the
remainder of the converted operands, not of the operands themselves:
`(2^53 + 1) % 3` evaluates to `2` although the exact remainder is `0`; and
with a non-numeric left operand, `/` by a numeric-zero divisor raises a type
error rather than "division by zero", so the claim's "exactly when" fails
there as well. -/
theorem C6_counterexample :
    evalBinaryOp .percent (.intV (2 ^ 53 + 1)) (.intV 3) = .ok (.intV 2) ∧
    Int.tmod (2 ^ 53 + 1) 3 = 0 ∧ (2 : Int) ≠ 0 ∧
    evalBinaryOp .slash (.strV "x") (.intV 0) =
      .error (.cannotApply "/" "string" "int") ∧
    RErr.cannotApply "/" "string" "int" ≠ RErr.divisionByZero :=
  ⟨rfl, by decide, by decide, rfl, by decide⟩

/-- C6 as amended: `/` raises "division by zero" exactly when the divisor is
numeric zero, for Int and Float divisors alike, given a numeric left operand
(a non-numeric operand raises a type error before the zero check); `%`
raises a runtime error unless both operands are Int, raises "division by
zero" when the Int right-hand side is zero, and otherwise returns, for every
i64 operand pair, the Int remainder of the `int64(float64(·))` images of the
operands (the conversion taking the amd64 out-of-range result) — the exact
remainder whenever both magnitudes are at most `2^53`, but not above. -/
theorem C6_slash_percent_semantics (l r : Value) (lq : ℚ) (a b : Int) (q : ℚ) :
    (ToFloat64 l = some lq →
      ((evalBinaryOp .slash l (.intV b) = .error .divisionByZero ↔ b = 0) ∧
       (evalBinaryOp .slash l (.floatV q) = .error .divisionByZero ↔ q = 0))) ∧
    (¬ (isIntVal l = true ∧ isIntVal r = true) →
      ∃ e, evalBinaryOp .percent l r = .error e) ∧
    (evalBinaryOp .percent (.intV a) (.intV 0) = .error .divisionByZero) ∧
    (b ≠ 0 →
      evalBinaryOp .percent (.intV a) (.intV b) =
        .ok (.intV (Int.tmod (roundTrip64 a) (roundTrip64 b)))) ∧
    (a.natAbs ≤ 2 ^ 53 → b.natAbs ≤ 2 ^ 53 → b ≠ 0 →
      evalBinaryOp .percent (.intV a) (.intV b) = .ok (.intV (Int.tmod a b))) := by
  have hgmod : ∀ _hbz : b ≠ 0,
      evalBinaryOp .percent (.intV a) (.intV b) =
        .ok (.intV (Int.tmod (roundTrip64 a) (roundTrip64 b))) := by
    intro hbz
    have hnz : int64ofF64 ((roundInt53 b : Int) : ℚ) ≠ 0 := roundTrip64_ne_zero hbz
    simp [evalBinaryOp, isStringVal, isIntVal, ToFloat64, roundTrip64, hnz]
  refine ⟨?_, ?_, ?_, hgmod, ?_⟩
  · intro hl
    have hsl : isStringVal l = false := by
      cases l <;> simp_all [ToFloat64, isStringVal]
    constructor
    · constructor
      · intro h
        by_contra hbz
        have hnz : ((roundInt53 b : Int) : ℚ) ≠ 0 := by
          exact_mod_cast roundInt53_ne_zero hbz
        cases l <;> simp_all [evalBinaryOp, isStringVal, isIntVal, ToFloat64]
      · rintro rfl
        have hz : roundInt53 (0 : Int) = 0 := by decide
        cases l <;> simp_all [evalBinaryOp, isStringVal, isIntVal, ToFloat64, hz]
    · constructor
      · intro h
        by_contra hqz
        cases l <;> simp_all [evalBinaryOp, isStringVal, isIntVal, ToFloat64]
      · rintro rfl
        cases l <;> simp_all [evalBinaryOp, isStringVal, isIntVal, ToFloat64]
  · intro hni
    cases l <;> cases r <;>
      simp_all [evalBinaryOp, isIntVal, isStringVal, ToFloat64]
  · have hz : int64ofF64 ((roundInt53 (0 : Int) : Int) : ℚ) = 0 := by decide
    simp [evalBinaryOp, isStringVal, isIntVal, ToFloat64, hz]
  · intro ha hb hbz
    rw [hgmod hbz, roundTrip64_eq_of_le ha, roundTrip64_eq_of_le hb]

/-- C6 witness: the amended semantics at concrete inputs. -/
theorem C6_witness :
    (evalBinaryOp .slash (.intV 1) (.intV 0) = .error .divisionByZero ↔ (0 : Int) = 0) ∧
    (∃ e, evalBinaryOp .percent (.intV 1) (.floatV 2) = .error e) ∧
    evalBinaryOp .percent (.intV 7) (.intV 2) = .ok (.intV (Int.tmod 7 2)) := by
  refine ⟨?_, ?_, ?_⟩
  · exact ((C6_slash_percent_semantics (.intV 1) .nullV 1 0 0 0).1 rfl).1
  · exact (C6_slash_percent_semantics (.intV 1) (.floatV 2) 0 0 0 0).2.1
      (by simp [isIntVal])
  · exact (C6_slash_percent_semantics (.intV 7) .nullV 0 7 2 0).2.2.2.2 (by norm_num)
      (by norm_num) (by norm_num)

/-- C3: `try` with a catch block — a thrown value binds the catch parameter
to that exact value; a runtime error binds the error's message as a
`String`; an absent parameter binds nothing; an error-free body's result
(its control-flow signal included) is returned and the catch body does not
run; with no catch body the error propagates unchanged. The catch body runs
in a fresh child of the current environment in every case. -/
theorem C3_try_catch_semantics (fuel : Nat) (env : Environment) (body : List Stmt)
    (p : String) (cb : List Stmt) :
    (∀ v, p ≠ "" →
      execBlock fuel (.mk [] [] (some env)) body = some (.error (.thrown v)) →
      execTry (fuel + 1) env body p (some cb) =
        execBlock fuel (.mk [(p, v)] [] (some env)) cb) ∧
    (∀ re, p ≠ "" →
      execBlock fuel (.mk [] [] (some env)) body = some (.error (.runtime re)) →
      execTry (fuel + 1) env body p (some cb) =
        execBlock fuel (.mk [(p, .strV re.message)] [] (some env)) cb) ∧
    (∀ er, execBlock fuel (.mk [] [] (some env)) body = some (.error er) →
      execTry (fuel + 1) env body "" (some cb) =
        execBlock fuel (.mk [] [] (some env)) cb) ∧
    (∀ r, execBlock fuel (.mk [] [] (some env)) body = some (.ok r) →
      execTry (fuel + 1) env body p (some cb) = some (.ok r)) ∧
    (∀ er, execBlock fuel (.mk [] [] (some env)) body = some (.error er) →
      execTry (fuel + 1) env body p none = some (.error er)) := by
  refine ⟨?_, ?_, ?_, ?_, ?_⟩
  · intro v hp hb
    simp [execTry, hb, hp, defineIgn, Environment.Define, lookupA, insertA]
  · intro re hp hb
    simp [execTry, hb, hp, defineIgn, Environment.Define, lookupA, insertA]
  · intro er hb
    cases er <;> simp [execTry, hb, defineIgn, Environment.Define, lookupA, insertA]
  · intro r hb
    simp [execTry, hb]
  · intro er hb
    simp [execTry, hb]

/-- C3 witness: a thrown `7` is caught with `e` bound to exactly `IntVal 7`,
and the catch body returns it. -/
theorem C3_witness :
    execTry 6 (.mk [] [] none) [.throwStmt (.intLiteral 7)] "e"
        (some [.returnStmt (some (.identExpr "e"))]) =
      execBlock 5 (.mk [("e", .intV 7)] [] (some (.mk [] [] none)))
        [.returnStmt (some (.identExpr "e"))] ∧
    execTry 6 (.mk [] [] none) [.throwStmt (.intLiteral 7)] "e"
        (some [.returnStmt (some (.identExpr "e"))]) =
      some (.ok ⟨.sigReturn, .intV 7⟩) := by
  have h := (C3_try_catch_semantics 5 (.mk [] [] none) [.throwStmt (.intLiteral 7)] "e"
    [.returnStmt (some (.identExpr "e"))]).1 (.intV 7) (by decide) rfl
  exact ⟨h, by rw [h]; rfl⟩

/-- C5: `||` and `&&` short-circuit — when the left operand decides the
outcome, the result is the left operand's original value (not coerced to
bool) and the right operand is not evaluated (the result is the same for
every right operand, including ones whose evaluation would fail); otherwise
the result is the right operand's value. -/
theorem C5_logical_short_circuit (fuel : Nat) (env : Environment) (a b : Expr)
    (va : Value) :
    evalExpr fuel env a = some (.ok va) →
    ((IsTruthy va = true →
        evalExpr (fuel + 2) env (.binaryExpr .or a b) = some (.ok va)) ∧
     (IsTruthy va = false →
        evalExpr (fuel + 2) env (.binaryExpr .or a b) = evalExpr fuel env b) ∧
     (IsTruthy va = false →
        evalExpr (fuel + 2) env (.binaryExpr .and a b) = some (.ok va)) ∧
     (IsTruthy va = true →
        evalExpr (fuel + 2) env (.binaryExpr .and a b) = evalExpr fuel env b)) := by
  intro ha
  refine ⟨?_, ?_, ?_, ?_⟩ <;> intro ht <;> simp [evalExpr, evalLogical, ha, ht]

/-- C5 witness: `true || x` with an undefined `x` evaluates to the original
`true` without error, although evaluating `x` alone errors. -/
theorem C5_witness :
    evalExpr 3 (.mk [] [] none) (.binaryExpr .or (.boolLiteral true) (.identExpr "x")) =
      some (.ok (.boolV true)) ∧
    evalExpr 1 (.mk [] [] none) (.identExpr "x") =
      some (.error (.runtime (.undefinedVariable "x"))) := by
  refine ⟨?_, rfl⟩
  exact (C5_logical_short_circuit 1 (.mk [] [] none) (.boolLiteral true) (.identExpr "x")
    (.boolV true) rfl).1 rfl

/-- C9: `new C(args)` returns the freshly allocated object of class `C`:
whatever result the constructor body produces — in particular a `Return`
signal carrying any value — the value of the `new` expression is the new
object, never the returned value. -/
theorem C9_new_returns_object_not_ctor_return (fuel : Nat) (env : Environment)
    (cn : String) (cls ctorClass : ClassData) (params : List String)
    (body : List Stmt) (argExprs : List Expr) (argVals : List Value) (r : ExecResult) :
    env.Get cn = some (.classV cls) →
    findConstructor cls = some ((params, body), ctorClass) →
    evalArgs (fuel + 1) env argExprs = some (.ok argVals) →
    argVals.length = params.length →
    execBlock (fuel + 1)
      (bindParams params argVals
        (defineIgn (defineIgn (.mk [] [] (some ctorClass.env)) "this" (.objectV cls []) true)
          "__class__" (.classV ctorClass) true))
      body = some (.ok r) →
    evalNew (fuel + 2) env cn argExprs = some (.ok (.objectV cls [])) := by
  intro hg hc hargs hlen hbody
  simp [evalNew, hg, hc, hargs, hlen, hbody]

/-- C9 witness: a constructor whose body is `return 42` still yields the new
object, not `IntVal 42`. -/
theorem C9_witness :
    evalNew 4
      (.mk [("C", .classV (.mk "C" (some ([], [.returnStmt (some (.intLiteral 42))]))
        (.mk [] [] none) none))] [] none)
      "C" [] =
    some (.ok (.objectV (.mk "C" (some ([], [.returnStmt (some (.intLiteral 42))]))
      (.mk [] [] none) none) [])) := by
  exact C9_new_returns_object_not_ctor_return 2
    (.mk [("C", .classV (.mk "C" (some ([], [.returnStmt (some (.intLiteral 42))]))
      (.mk [] [] none) none))] [] none)
    "C"
    (.mk "C" (some ([], [.returnStmt (some (.intLiteral 42))])) (.mk [] [] none) none)
    (.mk "C" (some ([], [.returnStmt (some (.intLiteral 42))])) (.mk [] [] none) none)
    [] [.returnStmt (some (.intLiteral 42))] [] [] ⟨.sigReturn, .intV 42⟩
    rfl rfl rfl rfl rfl

/-- C10: a user function whose parameter list repeats a name is called
without error when the arity matches: the second `Define` of the repeated
name fails and its error is discarded, so the parameter stays bound to the
argument of its first occurrence and the later argument is silently
dropped. -/
theorem C10_duplicate_parameter_keeps_first_binding (fuel : Nat) (fname x : String)
    (a b : Value) (closure : Environment) :
    bindParams [x, x] [a, b] (.mk [] [] (some closure)) =
      .mk [(x, a)] [] (some closure) ∧
    callFunc (fuel + 4) fname [x, x] [.returnStmt (some (.identExpr x))] closure [a, b] =
      some (.ok a) := by
  have hbind : bindParams [x, x] [a, b] (.mk [] [] (some closure)) =
      .mk [(x, a)] [] (some closure) := by
    simp [bindParams, defineIgn, Environment.Define, lookupA, insertA]
  refine ⟨hbind, ?_⟩
  simp [callFunc, bindParams, defineIgn, Environment.Define, lookupA, insertA,
    execBlock, execStmt, evalExpr, Environment.Get, resultNone]

/-! ### Environment-chain lemmas for C4 -/

theorem Set_fail_unchanged : ∀ (e : Environment) (n : String) (v : Value),
    (e.Set n v).1.isSome → (e.Set n v).2 = e
  | .mk values consts parent, n, v => by
    rw [Set_mk]
    by_cases hf : (lookupA values n).isSome
    · by_cases hc : n ∈ consts <;> simp [hf, hc]
    · cases parent with
      | none => simp [hf]
      | some p =>
        have ih := Set_fail_unchanged p n v
        rcases hsp : p.Set n v with ⟨err, p'⟩
        rw [hsp] at ih
        simp [hf, hsp]
        intro hs
        exact ih hs

theorem Set_undef_iff : ∀ (e : Environment) (n : String) (v : Value),
    (e.Set n v).1 = some (.undefinedVariable n) ↔ e.Get n = none
  | .mk values consts parent, n, v => by
    rw [Set_mk]
    cases hf : lookupA values n with
    | some w =>
      by_cases hc : n ∈ consts <;>
        simp [Get_mk, hf, hc]
    | none =>
      cases parent with
      | none => simp [Get_mk, hf]
      | some p =>
        have ih := Set_undef_iff p n v
        rcases hsp : p.Set n v with ⟨err, p'⟩
        rw [hsp] at ih
        simpa [Get_mk, hf, hsp] using ih

theorem Set_const_iff : ∀ (e : Environment) (n : String) (v : Value),
    (e.Set n v).1 = some (.cannotAssignConstant n) ↔ nearestConst e n = some true
  | .mk values consts parent, n, v => by
    rw [Set_mk]
    cases hf : lookupA values n with
    | some w =>
      by_cases hc : n ∈ consts <;>
        simp [nearestConst_mk, hf, hc]
    | none =>
      cases parent with
      | none => simp [nearestConst_mk, hf]
      | some p =>
        have ih := Set_const_iff p n v
        rcases hsp : p.Set n v with ⟨err, p'⟩
        rw [hsp] at ih
        simpa [nearestConst_mk, hf, hsp] using ih

theorem Set_ok_iff : ∀ (e : Environment) (n : String) (v : Value),
    (e.Set n v).1 = none ↔ nearestConst e n = some false
  | .mk values consts parent, n, v => by
    rw [Set_mk]
    cases hf : lookupA values n with
    | some w =>
      by_cases hc : n ∈ consts <;>
        simp [nearestConst_mk, hf, hc]
    | none =>
      cases parent with
      | none => simp [nearestConst_mk, hf]
      | some p =>
        have ih := Set_ok_iff p n v
        rcases hsp : p.Set n v with ⟨err, p'⟩
        rw [hsp] at ih
        simpa [nearestConst_mk, hf, hsp] using ih

theorem Set_get_self : ∀ (e : Environment) (n : String) (v : Value),
    (e.Set n v).1 = none → (e.Set n v).2.Get n = some v
  | .mk values consts parent, n, v => by
    rw [Set_mk]
    cases hf : lookupA values n with
    | some w =>
      by_cases hc : n ∈ consts <;>
        simp [Get_mk, hf, hc, lookupA_insertA_self]
    | none =>
      cases parent with
      | none => simp [hf]
      | some p =>
        have ih := Set_get_self p n v
        rcases hsp : p.Set n v with ⟨err, p'⟩
        rw [hsp] at ih
        intro hs
        simp only [hf, Option.isSome_none, Bool.false_eq_true, if_false, hsp] at hs ⊢
        simp [Get_mk, hf, ih hs]

theorem Set_get_other : ∀ (e : Environment) (n m : String) (v : Value), m ≠ n →
    (e.Set n v).2.Get m = e.Get m
  | .mk values consts parent, n, m, v => by
    intro hm
    rw [Set_mk]
    cases hf : lookupA values n with
    | some w =>
      by_cases hc : n ∈ consts <;>
        simp [Get_mk, hf, hc, lookupA_insertA_ne (Ne.symm hm)]
    | none =>
      cases parent with
      | none => simp [hf]
      | some p =>
        have ih := Set_get_other p n m v hm
        rcases hsp : p.Set n v with ⟨err, p'⟩
        rw [hsp] at ih
        simp only [hf, Option.isSome_none, Bool.false_eq_true, if_false, hsp]
        simp [Get_mk, ih]

theorem Get_eq_chainConcat : ∀ (e : Environment) (n : String),
    e.Get n = lookupA (chainConcat e) n
  | .mk values consts none, n => by
    simp [Get_mk, chainConcat_mk, lookupA_append]
    cases lookupA values n <;> simp
  | .mk values consts (some p), n => by
    have ih := Get_eq_chainConcat p n
    simp [Get_mk, chainConcat_mk, lookupA_append, ih]
    cases lookupA values n <;> simp

/-- C4: `Define` fails exactly when the name is bound in the current node
(parent bindings never block it, and on success the binding is added to the
current node); `Set` fails with "undefined variable" exactly when no node in
the chain binds the name, fails with "cannot assign to constant" exactly
when the nearest binding is const, succeeds exactly when the nearest binding
is non-const, changes no binding on failure, and on success updates the
looked-up name and nothing else; `Get` is first-hit lookup along the
flattened chain. -/
theorem C4_environment_chain (values : List (String × Value)) (consts : List String)
    (parent : Option Environment) (e : Environment) (n m : String) (v : Value) (c : Bool) :
    (((Environment.mk values consts parent).Define n v c = .error (.alreadyDeclared n)) ↔
        (lookupA values n).isSome) ∧
    ((lookupA values n).isSome = false →
      (Environment.mk values consts parent).Define n v c =
        .ok (.mk (insertA values n v) (if c then n :: consts else consts) parent)) ∧
    ((e.Set n v).1 = some (.undefinedVariable n) ↔ e.Get n = none) ∧
    ((e.Set n v).1 = some (.cannotAssignConstant n) ↔ nearestConst e n = some true) ∧
    ((e.Set n v).1 = none ↔ nearestConst e n = some false) ∧
    (∀ er, (e.Set n v).1 = some er → (e.Set n v).2 = e) ∧
    ((e.Set n v).1 = none → (e.Set n v).2.Get n = some v) ∧
    (m ≠ n → (e.Set n v).2.Get m = e.Get m) ∧
    (e.Get n = lookupA (chainConcat e) n) := by
  refine ⟨?_, ?_, Set_undef_iff e n v, Set_const_iff e n v, Set_ok_iff e n v,
    ?_, Set_get_self e n v, Set_get_other e n m v, Get_eq_chainConcat e n⟩
  · cases hf : (lookupA values n).isSome <;> simp [Environment.Define, hf]
  · intro hf
    simp [Environment.Define, hf]
  · intro er hs
    exact Set_fail_unchanged e n v (by simp [hs])

/-- C4 witness: redeclaration in the same node fails, a const binding in the
parent rejects `Set`, and a successful `Set` through the chain is visible to
`Get`. -/
theorem C4_witness :
    (Environment.mk [("x", .intV 1)] [] none).Define "x" (.intV 2) false =
      .error (.alreadyDeclared "x") ∧
    ((Environment.mk [] [] (some (.mk [("z", .intV 3)] ["z"] none))).Set "z" (.intV 4)).1 =
      some (.cannotAssignConstant "z") ∧
    ((Environment.mk [] [] (some (.mk [("w", .intV 3)] [] none))).Set "w" (.intV 4)).2.Get
      "w" = some (.intV 4) := by
  refine ⟨?_, ?_, ?_⟩
  · exact (C4_environment_chain [("x", .intV 1)] [] none (.mk [] [] none) "x" "m"
      (.intV 2) false).1.mpr (by decide)
  · exact (C4_environment_chain [] [] none
      (.mk [] [] (some (.mk [("z", .intV 3)] ["z"] none))) "z" "m" (.intV 4)
      false).2.2.2.1.mpr (by decide)
  · exact (C4_environment_chain [] [] none
      (.mk [] [] (some (.mk [("w", .intV 3)] [] none))) "w" "m" (.intV 4)
      false).2.2.2.2.2.2.1 (by decide)

/-! ### Ordered-map lemmas for C7 -/

theorem lookup_mapFold : ∀ (entries : List (String × Value))
    (m : List String × List (String × Value)) (k : String),
    lookupA (mapFold m entries).2 k =
      match lastVal entries k with
      | some v => some v
      | none => lookupA m.2 k
  | [], m, k => by simp [mapFold, lastVal]
  | (k0, v0) :: rest, m, k => by
    have ih := lookup_mapFold rest (mapSetKV m.1 m.2 k0 v0) k
    rw [mapFold, ih]
    simp only [mapSetKV, lastVal]
    cases hl : lastVal rest k with
    | some v' => simp
    | none =>
      rw [lookupA_insertA]
      by_cases h : k0 = k <;> simp [h]

theorem keys_mapFold : ∀ (entries : List (String × Value))
    (m : List String × List (String × Value)),
    (mapFold m entries).1 = m.1 ++ newKeys m.2 entries
  | [], m => by simp [mapFold, newKeys]
  | (k0, v0) :: rest, m => by
    have ih := keys_mapFold rest (mapSetKV m.1 m.2 k0 v0)
    rw [mapFold, ih]
    by_cases h : (lookupA m.2 k0).isSome <;>
      simp [mapSetKV, newKeys, h]

theorem newKeys_eq_firstOccurFrom : ∀ (entries : List (String × Value))
    (values : List (String × Value)) (seen : List String),
    (∀ k, k ∈ seen ↔ (lookupA values k).isSome) →
    newKeys values entries = firstOccurFrom seen (entries.map Prod.fst)
  | [], _, _, _ => by simp [newKeys, firstOccurFrom]
  | (k0, v0) :: rest, values, seen, hdom => by
    by_cases h : (lookupA values k0).isSome
    · have hseen : k0 ∈ seen := (hdom k0).mpr h
      have hdom' : ∀ k, k ∈ seen ↔ (lookupA (insertA values k0 v0) k).isSome := by
        intro k
        rw [lookupA_insertA]
        by_cases hk : k0 = k
        · subst hk; simp [hseen]
        · simp [hk, hdom]
      have ih := newKeys_eq_firstOccurFrom rest (insertA values k0 v0) seen hdom'
      simp [newKeys, firstOccurFrom, h, hseen, ih]
    · have hseen : k0 ∉ seen := fun hx => h ((hdom k0).mp hx)
      have hdom' : ∀ k, k ∈ (k0 :: seen) ↔ (lookupA (insertA values k0 v0) k).isSome := by
        intro k
        rw [lookupA_insertA]
        by_cases hk : k0 = k
        · subst hk; simp
        · simp [hk, hdom, Ne.symm hk]
      have ih := newKeys_eq_firstOccurFrom rest (insertA values k0 v0) (k0 :: seen) hdom'
      simp [newKeys, firstOccurFrom, h, hseen, ih]

theorem mem_firstOccurFrom : ∀ (ks seen : List String) (k : String),
    k ∈ firstOccurFrom seen ks ↔ k ∈ ks ∧ k ∉ seen
  | [], seen, k => by simp [firstOccurFrom]
  | k0 :: rest, seen, k => by
    by_cases hs : k0 ∈ seen
    · rw [firstOccurFrom, if_pos hs, mem_firstOccurFrom rest seen k]
      constructor
      · rintro ⟨hr, hn⟩
        exact ⟨List.mem_cons_of_mem _ hr, hn⟩
      · rintro ⟨hk, hn⟩
        rcases List.mem_cons.mp hk with rfl | hr
        · exact absurd hs hn
        · exact ⟨hr, hn⟩
    · rw [firstOccurFrom, if_neg hs]
      rw [List.mem_cons, mem_firstOccurFrom rest (k0 :: seen) k]
      constructor
      · rintro (rfl | ⟨hr, hn⟩)
        · exact ⟨List.mem_cons_self _ _, hs⟩
        · refine ⟨List.mem_cons_of_mem _ hr, fun hx => hn (List.mem_cons_of_mem _ hx)⟩
      · rintro ⟨hk, hn⟩
        rcases List.mem_cons.mp hk with rfl | hr
        · exact Or.inl rfl
        · by_cases hk0 : k = k0
          · exact Or.inl hk0
          · exact Or.inr ⟨hr, fun hx => (List.mem_cons.mp hx).elim hk0 hn⟩

theorem nodup_firstOccurFrom : ∀ (ks seen : List String),
    (firstOccurFrom seen ks).Nodup
  | [], seen => by simp [firstOccurFrom]
  | k0 :: rest, seen => by
    by_cases hs : k0 ∈ seen
    · rw [firstOccurFrom, if_pos hs]
      exact nodup_firstOccurFrom rest seen
    · rw [firstOccurFrom, if_neg hs]
      refine List.Nodup.cons ?_ (nodup_firstOccurFrom rest (k0 :: seen))
      intro hx
      exact ((mem_firstOccurFrom rest (k0 :: seen) k0).mp hx).2 (List.mem_cons_self _ _)

theorem lastVal_isSome_iff : ∀ (entries : List (String × Value)) (k : String),
    (lastVal entries k).isSome ↔ k ∈ entries.map Prod.fst
  | [], k => by simp [lastVal]
  | (k0, v0) :: rest, k => by
    rw [lastVal]
    cases hl : lastVal rest k with
    | some v' =>
      have := (lastVal_isSome_iff rest k).mp (by simp [hl])
      simp [this]
    | none =>
      have hr : ¬ k ∈ rest.map Prod.fst := fun hx => by
        have := (lastVal_isSome_iff rest k).mpr hx
        simp [hl] at this
      by_cases h : k0 = k
      · subst h
        simp
      · have hne : ¬ k = k0 := fun he => h he.symm
        simp [h, hne, hr]

/-- C7: a map literal's key list records each key at its first-insertion
position while the last value for a duplicated key wins; the key list lists
exactly the keys of the value mapping, without duplicates; and member or
index assignment (`mapSetKV`) appends the key only when it is new — so
overwriting an existing key never changes its position — and preserves the
invariant. -/
theorem C7_map_insertion_order (entries : List (String × Value))
    (keys : List String) (values : List (String × Value)) (k : String) (v : Value) :
    ((evalMapLiteral entries).1 = firstOccur (entries.map Prod.fst)) ∧
    (lookupA (evalMapLiteral entries).2 k = lastVal entries k) ∧
    WFmap (evalMapLiteral entries).1 (evalMapLiteral entries).2 ∧
    ((lookupA values k).isSome → (mapSetKV keys values k v).1 = keys) ∧
    ((lookupA values k).isSome = false → (mapSetKV keys values k v).1 = keys ++ [k]) ∧
    (WFmap keys values → WFmap (mapSetKV keys values k v).1 (mapSetKV keys values k v).2) := by
  have hkeys : (evalMapLiteral entries).1 = firstOccur (entries.map Prod.fst) := by
    rw [evalMapLiteral, keys_mapFold]
    rw [newKeys_eq_firstOccurFrom entries [] [] (by simp [lookupA])]
    simp [firstOccur]
  have hlook : ∀ k', lookupA (evalMapLiteral entries).2 k' = lastVal entries k' := by
    intro k'
    rw [evalMapLiteral, lookup_mapFold]
    cases lastVal entries k' <;> simp [lookupA]
  refine ⟨hkeys, hlook k, ⟨?_, ?_⟩, ?_, ?_, ?_⟩
  · rw [hkeys]
    exact nodup_firstOccurFrom _ _
  · intro k'
    rw [hkeys, hlook k', firstOccur, mem_firstOccurFrom, lastVal_isSome_iff]
    simp
  · intro h
    simp [mapSetKV, h]
  · intro h
    simp [mapSetKV, h]
  · rintro ⟨hnd, hmem⟩
    by_cases h : (lookupA values k).isSome
    · refine ⟨by simpa [mapSetKV, h] using hnd, ?_⟩
      intro k'
      simp only [mapSetKV, h, if_pos, lookupA_insertA]
      by_cases hk : k = k'
      · subst hk
        simp [hmem, h]
      · simp [hk, hmem]
    · refine ⟨?_, ?_⟩
      · have hknot : k ∉ keys := fun hx => by
          have := (hmem k).mp hx
          simp [h] at this
        simp [mapSetKV, h, List.nodup_append, hnd, hknot]
      · intro k'
        simp only [mapSetKV, h, Bool.false_eq_true, if_false, lookupA_insertA]
        by_cases hk : k = k'
        · subst hk
          simp
        · have hne : ¬ k' = k := fun he => hk he.symm
          simp [hk, hne, hmem, List.mem_append]

/-- C7 witness: the literal `{a: 1, b: 2, a: 3}` keeps `a` first with value
`3`, and overwriting `a` by assignment keeps the key order. -/
theorem C7_witness :
    (evalMapLiteral [("a", .intV 1), ("b", .intV 2), ("a", .intV 3)]).1 = ["a", "b"] ∧
    lookupA (evalMapLiteral [("a", .intV 1), ("b", .intV 2), ("a", .intV 3)]).2 "a" =
      some (.intV 3) ∧
    (mapSetKV ["a", "b"] [("a", .intV 3), ("b", .intV 2)] "a" (.intV 9)).1 = ["a", "b"] := by
  refine ⟨?_, ?_, ?_⟩
  · rw [(C7_map_insertion_order [("a", .intV 1), ("b", .intV 2), ("a", .intV 3)]
      [] [] "a" (.intV 0)).1]
    decide
  · rw [(C7_map_insertion_order [("a", .intV 1), ("b", .intV 2), ("a", .intV 3)]
      [] [] "a" (.intV 0)).2.1]
    rfl
  · exact (C7_map_insertion_order [] ["a", "b"] [("a", .intV 3), ("b", .intV 2)]
      "a" (.intV 9)).2.2.2.1 (by decide)

end LightLang


